import Mathlib

/-! # Network address classification and grouping (`p2p/addmgr/network.go`)

A shallow embedding of the address classifier (`isLocal`, `isRFCxxxx`, `isValid`,
`IsRoutable`) and of the group-key deriver (`GroupKey`) of the address manager,
together with the part of Go's standard `net` package they call.

Conventions of the embedding:

* a byte is a `Nat`; statements about bytes carry the bound `< 256` explicitly;
* a Go byte subslice (`net.IP`, `net.IPMask`) is a `List Nat`; the `nil` subslice is `[]`;
* a sub-slice `p[lo:hi]` taken where the bounds are known to hold is
  `(p.take hi).drop lo`; the slices and the index taken by `GroupKey` itself are
  checked, and `GroupKey` returns `none` where the Go code would panic;
* a Go `string` is a Lean `String`.
-/

set_option maxRecDepth 100000

/-! ## The part of package `net` used by the classifier -/

namespace net

/-- The Go type `net.IP`, a subslice of bytes (`nil` is `[]`). -/
abbrev IP := List Nat

/-- The Go type `net.IPMask`, a subslice of bytes. -/
abbrev IPMask := List Nat

/-- Length in bytes of an IPv4 address. -/
def IPv4len : Nat := 4

/-- Length in bytes of an IPv6 address. -/
def IPv6len : Nat := 16

/-- The twelve bytes that precede an IPv4 address in its IPv4-mapped IPv6 form. -/
def v4InV6Prefix : List Nat := [0, 0, 0, 0, 0, 0, 0, 0, 0, 0, 0xff, 0xff]

/-- The function `net.IPv4`: the 16-byte form of the IPv4 address `a.b.c.d`. -/
def IPv4 (a b c d : Nat) : IP := v4InV6Prefix ++ [a, b, c, d]

/-- The limited broadcast address `255.255.255.255`. -/
def IPv4bcast : IP := IPv4 255 255 255 255

/-- The IPv4 all-zero address `0.0.0.0`. -/
def IPv4zero : IP := IPv4 0 0 0 0

/-- The IPv6 unspecified address. -/
def IPv6unspecified : IP := [0, 0, 0, 0, 0, 0, 0, 0, 0, 0, 0, 0, 0, 0, 0, 0]

/-- The IPv6 loopback address. -/
def IPv6loopback : IP := [0, 0, 0, 0, 0, 0, 0, 0, 0, 0, 0, 0, 0, 0, 0, 1]

/-- The sub-slice `p[lo:hi]`, used where the bounds have been checked. -/
def subslice (p : List Nat) (lo hi : Nat) : List Nat := (p.take hi).drop lo

/-- The function `isZeros`: every byte of the slice is zero. -/
def isZeros (p : IP) : Bool := p.all (fun b => b == 0)

/-- The function `allFF`: every byte of the slice is `0xff`. -/
def allFF (b : List Nat) : Bool := b.all (fun c => c == 0xff)

/-- The method `IP.To4`: the 4-byte form of an IPv4 address, `nil` otherwise. -/
def IP.To4 (ip : IP) : IP :=
  if ip.length == IPv4len then ip
  else if ip.length == IPv6len && isZeros (subslice ip 0 10) &&
      ip.getD 10 0 == 0xff && ip.getD 11 0 == 0xff then subslice ip 12 16
  else []

/-- The method `IP.Equal`: equality of addresses, an IPv4 address and its
IPv4-mapped form being equal. -/
def IP.Equal (ip x : IP) : Bool :=
  if ip.length == x.length then ip == x
  else if ip.length == IPv4len && x.length == IPv6len then
    subslice x 0 12 == v4InV6Prefix && ip == x.drop 12
  else if ip.length == IPv6len && x.length == IPv4len then
    subslice ip 0 12 == v4InV6Prefix && ip.drop 12 == x
  else false

/-- The method `IP.IsUnspecified`. -/
def IP.IsUnspecified (ip : IP) : Bool :=
  ip.Equal IPv4zero || ip.Equal IPv6unspecified

/-- The method `IP.IsLoopback`. -/
def IP.IsLoopback (ip : IP) : Bool :=
  let ip4 := ip.To4
  if ip4 != [] then ip4.getD 0 0 == 127
  else ip.Equal IPv6loopback

/-- The loop of `CIDRMask`: `l` bytes remain to be written, `n` one bits remain. -/
def cidrMaskLoop : Nat → Nat → List Nat
  | 0, _ => []
  | l + 1, n =>
    if n ≥ 8 then 0xff :: cidrMaskLoop l (n - 8)
    else ((0xff >>> n) ^^^ 0xff) :: cidrMaskLoop l 0

/-- The function `net.CIDRMask`: a mask of `ones` one bits followed by zero bits,
`bits` bits in all; `nil` when the arguments are out of range. -/
def CIDRMask (ones bits : Int) : IPMask :=
  if bits != 8 * IPv4len && bits != 8 * IPv6len then []
  else if ones < 0 || ones > bits then []
  else cidrMaskLoop (bits / 8).toNat ones.toNat

/-- The Go type `net.IPNet`: a network number and its mask. -/
structure IPNet where
  IP : IP
  Mask : IPMask

/-- The function `networkNumberAndMask`; `(nil, nil)` when the network is malformed. -/
def networkNumberAndMask (n : IPNet) : IP × IPMask :=
  let ip4 := n.IP.To4
  if ip4 == [] && n.IP.length != IPv6len then ([], [])
  else
    let ip := if ip4 == [] then n.IP else ip4
    let m := n.Mask
    if m.length == IPv4len then
      if ip.length != IPv4len then ([], []) else (ip, m)
    else if m.length == IPv6len then
      if ip.length == IPv4len then (ip, m.drop 12) else (ip, m)
    else ([], [])

/-- The comparison loop of `IPNet.Contains`, over slices of equal length: the
first position where the masked bytes differ gives `false`. -/
def containsLoop : List Nat → List Nat → List Nat → Bool
  | n :: nn, m :: ms, x :: ip =>
    if n &&& m != x &&& m then false else containsLoop nn ms ip
  | _, _, _ => true

/-- The method `IPNet.Contains`. -/
def IPNet.Contains (n : IPNet) (ip : net.IP) : Bool :=
  let (nn, m) := networkNumberAndMask n
  let x := ip.To4
  let ip := if x != [] then x else ip
  if ip.length != nn.length then false
  else containsLoop nn m ip

/-- The method `IP.Mask`: the address masked byte by byte, `nil` when the
lengths do not fit. -/
def IP.Mask (ip : IP) (mask : IPMask) : IP :=
  let mask := if mask.length == IPv6len && ip.length == IPv4len && allFF (subslice mask 0 12)
    then mask.drop 12 else mask
  let ip := if mask.length == IPv4len && ip.length == IPv6len &&
    subslice ip 0 12 == v4InV6Prefix then ip.drop 12 else ip
  if ip.length != mask.length then []
  else List.zipWith (fun a b => a &&& b) ip mask

/-- The function `ubtoa`: the decimal digits of a byte, without leading zeros. -/
def ubtoa (v : Nat) : String :=
  if v < 10 then String.singleton (Char.ofNat (v + 48))
  else if v < 100 then
    (String.singleton (Char.ofNat (v / 10 + 48))).push (Char.ofNat (v % 10 + 48))
  else
    ((String.singleton (Char.ofNat (v / 100 + 48))).push
      (Char.ofNat ((v / 10) % 10 + 48))).push (Char.ofNat (v % 10 + 48))

/-- The table `hexDigit`. -/
def hexDigit : List Char := "0123456789abcdef".toList

/-- The function `appendHex`: appends the hexadecimal digits of `i`, without
leading zeros, to `dst`. -/
def appendHex (dst : String) (i : Nat) : String :=
  if i == 0 then dst.push '0'
  else
    [7, 6, 5, 4, 3, 2, 1, 0].foldl
      (fun dst j =>
        let v := i >>> (j * 4)
        if v > 0 then dst.push (hexDigit.getD (v &&& 0xf) '0') else dst)
      dst

/-- The function `hexString`: two hexadecimal digits for every byte. -/
def hexString (b : List Nat) : String :=
  b.foldl (fun s tn => (s.push (hexDigit.getD (tn >>> 4) '0')).push (hexDigit.getD (tn &&& 0xf) '0')) ""

/-- The dotted-decimal branch of `IP.String`, for a 4-byte address. -/
def dottedQuad (p4 : IP) : String :=
  ubtoa (p4.getD 0 0) ++ "." ++ ubtoa (p4.getD 1 0) ++ "." ++
    ubtoa (p4.getD 2 0) ++ "." ++ ubtoa (p4.getD 3 0)

/-- The inner loop of the search for zeros in `IP.String`: starting at `j`, the
index of the first 16-bit field that is not zero (or `IPv6len`). Every round
adds 2 to `j` and the loop stops at `IPv6len`, so 8 rounds are never exhausted. -/
def zeroRunEnd (p : IP) : Nat → Nat → Nat
  | 0, j => j
  | fuel + 1, j =>
    if j < IPv6len && p.getD j 0 == 0 && p.getD (j + 1) 0 == 0 then zeroRunEnd p fuel (j + 2)
    else j

/-- The outer loop of the search for zeros in `IP.String`: `(e0, e1)` bounds the
longest run of zero fields found so far, `i` is the loop index. Every round adds
at least 2 to `i` and the loop stops at `IPv6len`, so 8 rounds are never exhausted. -/
def longestZeroRun (p : IP) : Nat → Nat → Int → Int → Int × Int
  | 0, _, e0, e1 => (e0, e1)
  | fuel + 1, i, e0, e1 =>
    if i < IPv6len then
      let j := zeroRunEnd p 8 i
      if j > i && (j : Int) - (i : Int) > e1 - e0 then longestZeroRun p fuel (j + 2) i j
      else longestZeroRun p fuel (i + 2) e0 e1
    else (e0, e1)

/-- The 16-bit field of `p` at byte index `i`. -/
def field16 (p : IP) (i : Nat) : Nat := (p.getD i 0 <<< 8) ||| p.getD (i + 1) 0

/-- The printing loop of `IP.String`: the fields in hexadecimal separated by
colons, the run of zeros `[e0, e1)` replaced by a double colon. Every round adds
at least 2 to `i` and the loop stops at `IPv6len`. -/
def printFields (p : IP) (e0 e1 : Int) : Nat → Nat → String → String
  | 0, _, b => b
  | fuel + 1, i, b =>
    if i < IPv6len then
      if (i : Int) == e0 then
        let b := b ++ "::"
        let i := e1.toNat
        if i ≥ IPv6len then b
        else printFields p e0 e1 fuel (i + 2) (appendHex b (field16 p i))
      else
        let b := if i > 0 then b ++ ":" else b
        printFields p e0 e1 fuel (i + 2) (appendHex b (field16 p i))
    else b

/-- The colon-hexadecimal branch of `IP.String`, for a 16-byte address. -/
def colonHex (p : IP) : String :=
  let (e0, e1) := longestZeroRun p 8 0 (-1) (-1)
  let (e0, e1) := if e1 - e0 ≤ 2 then ((-1 : Int), (-1 : Int)) else (e0, e1)
  printFields p e0 e1 8 0 ""

/-- The method `IP.String`: dotted decimal for an IPv4 address (4 bytes or
IPv4-mapped), colon-hexadecimal for any other 16-byte address. -/
def IP.String (ip : IP) : String :=
  if ip.length == 0 then "<nil>"
  else if ip.To4.length == IPv4len then dottedQuad ip.To4
  else if ip.length != IPv6len then "?" ++ hexString ip
  else colonHex ip

/-- The conversion that `fmt.Sprintf` applies for the verb `%d` to an unsigned
integer (`fmtInteger` in base 10): the digits are produced from the least
significant one, `fuel` bounding the number of digits (20 for 64 bits). -/
def fmtInteger : Nat → Nat → List Char → List Char
  | 0, _, buf => buf
  | fuel + 1, u, buf =>
    if u ≥ 10 then
      let next := u / 10
      fmtInteger fuel next (Char.ofNat (48 + u - next * 10) :: buf)
    else Char.ofNat (48 + u) :: buf

end net

/-! ## Package `types`: the address record -/

namespace types

/-- Modelled from the spec: the record `types.NetAddress` is declared outside the
files at hand; the classifier reads only its field `IP`, "an opaque 4-byte (IPv4)
or 16-byte (IPv6) address value". -/
structure NetAddress where
  IP : net.IP

end types

/-! ## Package `addmgr`: the reserved-range table and the classifier -/

namespace addmgr

open net types

/-- The function `ipNet`. The address literal is given by the bytes `net.ParseIP`
returns for it (16 bytes, an IPv4 literal in its IPv4-mapped form). -/
def ipNet (ip : IP) (ones bits : Int) : IPNet :=
  { IP := ip, Mask := CIDRMask ones bits }

/-- RFC1918 private blocks `10.0.0.0/8`, `172.16.0.0/12`, `192.168.0.0/16`. -/
def rfc1918Nets : List IPNet :=
  [ipNet (IPv4 10 0 0 0) 8 32, ipNet (IPv4 172 16 0 0) 12 32, ipNet (IPv4 192 168 0 0) 16 32]

/-- RFC2544 block `198.18.0.0/15`. -/
def rfc2544Net : IPNet := ipNet (IPv4 198 18 0 0) 15 32

/-- RFC3849 documentation block `2001:DB8::/32`. -/
def rfc3849Net : IPNet :=
  ipNet [0x20, 0x01, 0x0d, 0xb8, 0, 0, 0, 0, 0, 0, 0, 0, 0, 0, 0, 0] 32 128

/-- RFC3927 autoconfiguration block `169.254.0.0/16`. -/
def rfc3927Net : IPNet := ipNet (IPv4 169 254 0 0) 16 32

/-- RFC3964 6to4 block `2002::/16`. -/
def rfc3964Net : IPNet :=
  ipNet [0x20, 0x02, 0, 0, 0, 0, 0, 0, 0, 0, 0, 0, 0, 0, 0, 0] 16 128

/-- RFC4193 unique local block `FC00::/7`. -/
def rfc4193Net : IPNet :=
  ipNet [0xfc, 0, 0, 0, 0, 0, 0, 0, 0, 0, 0, 0, 0, 0, 0, 0] 7 128

/-- RFC4380 Teredo block `2001::/32`. -/
def rfc4380Net : IPNet :=
  ipNet [0x20, 0x01, 0, 0, 0, 0, 0, 0, 0, 0, 0, 0, 0, 0, 0, 0] 32 128

/-- RFC4843 ORCHID block `2001:10::/28`. -/
def rfc4843Net : IPNet :=
  ipNet [0x20, 0x01, 0x00, 0x10, 0, 0, 0, 0, 0, 0, 0, 0, 0, 0, 0, 0] 28 128

/-- RFC4862 stateless autoconfiguration block `FE80::/64`. -/
def rfc4862Net : IPNet :=
  ipNet [0xfe, 0x80, 0, 0, 0, 0, 0, 0, 0, 0, 0, 0, 0, 0, 0, 0] 64 128

/-- RFC5737 documentation blocks `192.0.2.0/24`, `198.51.100.0/24`, `203.0.113.0/24`. -/
def rfc5737Net : List IPNet :=
  [ipNet (IPv4 192 0 2 0) 24 32, ipNet (IPv4 198 51 100 0) 24 32, ipNet (IPv4 203 0 113 0) 24 32]

/-- RFC6052 well-known prefix `64:FF9B::/96`. -/
def rfc6052Net : IPNet :=
  ipNet [0x00, 0x64, 0xff, 0x9b, 0, 0, 0, 0, 0, 0, 0, 0, 0, 0, 0, 0] 96 128

/-- RFC6145 translated range `::FFFF:0:0:0/96`. -/
def rfc6145Net : IPNet :=
  ipNet [0, 0, 0, 0, 0, 0, 0, 0, 0xff, 0xff, 0, 0, 0, 0, 0, 0] 96 128

/-- RFC6598 shared address space `100.64.0.0/10`. -/
def rfc6598Net : IPNet := ipNet (IPv4 100 64 0 0) 10 32

/-- The block `fd87:d87e:eb43::/48` that encodes onion addresses. -/
def onionCatNet : IPNet :=
  ipNet [0xfd, 0x87, 0xd8, 0x7e, 0xeb, 0x43, 0, 0, 0, 0, 0, 0, 0, 0, 0, 0] 48 128

/-- The block `0.0.0.0/8`. -/
def zero4Net : IPNet := ipNet (IPv4 0 0 0 0) 8 32

/-- The Hurricane Electric block `2001:470::/32`. -/
def heNet : IPNet :=
  ipNet [0x20, 0x01, 0x04, 0x70, 0, 0, 0, 0, 0, 0, 0, 0, 0, 0, 0, 0] 32 128

/-- The function `isIPv4`. -/
def isIPv4 (na : NetAddress) : Bool := na.IP.To4 != []

/-- The function `isLocal`. -/
def isLocal (na : NetAddress) : Bool := na.IP.IsLoopback || zero4Net.Contains na.IP

/-- The function `isOnionCatTor`. -/
def isOnionCatTor (na : NetAddress) : Bool := onionCatNet.Contains na.IP

/-- The function `isRFC1918`: the first block that contains the address gives `true`. -/
def isRFC1918 (na : NetAddress) : Bool := rfc1918Nets.any (fun rfc => rfc.Contains na.IP)

/-- The function `isRFC2544`. -/
def isRFC2544 (na : NetAddress) : Bool := rfc2544Net.Contains na.IP

/-- The function `isRFC3849`. -/
def isRFC3849 (na : NetAddress) : Bool := rfc3849Net.Contains na.IP

/-- The function `isRFC3927`. -/
def isRFC3927 (na : NetAddress) : Bool := rfc3927Net.Contains na.IP

/-- The function `isRFC3964`. -/
def isRFC3964 (na : NetAddress) : Bool := rfc3964Net.Contains na.IP

/-- The function `isRFC4193`. -/
def isRFC4193 (na : NetAddress) : Bool := rfc4193Net.Contains na.IP

/-- The function `isRFC4380`. -/
def isRFC4380 (na : NetAddress) : Bool := rfc4380Net.Contains na.IP

/-- The function `isRFC4843`. -/
def isRFC4843 (na : NetAddress) : Bool := rfc4843Net.Contains na.IP

/-- The function `isRFC4862`. -/
def isRFC4862 (na : NetAddress) : Bool := rfc4862Net.Contains na.IP

/-- The function `isRFC5737`: the first block that contains the address gives `true`. -/
def isRFC5737 (na : NetAddress) : Bool := rfc5737Net.any (fun rfc => rfc.Contains na.IP)

/-- The function `isRFC6052`. -/
def isRFC6052 (na : NetAddress) : Bool := rfc6052Net.Contains na.IP

/-- The function `isRFC6145`. -/
def isRFC6145 (na : NetAddress) : Bool := rfc6145Net.Contains na.IP

/-- The function `isRFC6598`. -/
def isRFC6598 (na : NetAddress) : Bool := rfc6598Net.Contains na.IP

/-- The function `isValid`. -/
def isValid (na : NetAddress) : Bool :=
  na.IP != [] && !(na.IP.IsUnspecified || na.IP.Equal IPv4bcast)

/-- The function `IsRoutable`. -/
def IsRoutable (na : NetAddress) : Bool :=
  isValid na && !(isRFC1918 na || isRFC2544 na ||
    isRFC3927 na || isRFC4862 na || isRFC3849 na ||
    isRFC4843 na || isRFC5737 na || isRFC6598 na ||
    isLocal na || (isRFC4193 na && !isOnionCatTor na))

/-- The checked sub-slice `p[lo:hi]`: `none` stands for the run-time panic of an
out-of-range slice (the capacity of the slice is taken to be its length). -/
def sliceChecked (p : IP) (lo hi : Nat) : Option IP :=
  if lo ≤ hi && hi ≤ p.length then some (subslice p lo hi) else none

/-- The function `GroupKey`; `none` stands for a run-time panic. -/
def GroupKey (na : NetAddress) : Option String :=
  if isLocal na then some "local"
  else if !IsRoutable na then some "unroutable"
  else if isIPv4 na then some (na.IP.Mask (CIDRMask 16 32)).String
  else if isRFC6145 na || isRFC6052 na then do
    let ip ← sliceChecked na.IP 12 16
    pure (ip.Mask (CIDRMask 16 32)).String
  else if isRFC3964 na then do
    let ip ← sliceChecked na.IP 2 6
    pure (ip.Mask (CIDRMask 16 32)).String
  else if isRFC4380 na then do
    let bytes ← sliceChecked na.IP 12 16
    let ip : IP := bytes.map (fun byte => byte ^^^ 0xff)
    pure (ip.Mask (CIDRMask 16 32)).String
  else if isOnionCatTor na then do
    let b ← na.IP[6]?
    pure ("tor:" ++ String.mk (fmtInteger 20 (b &&& ((1 <<< 4) - 1)) []))
  else
    let bits : Int := if heNet.Contains na.IP then 36 else 32
    some (na.IP.Mask (CIDRMask bits 128)).String

end addmgr

open net types addmgr


open net types addmgr

/-! ## Auxiliary facts -/

/-- Masking a byte with `0xff` leaves it unchanged. -/
theorem and_255_of_byte {b : Nat} (h : b < 256) : b &&& 255 = b := by
  have h2 : b &&& 255 = b % 256 := Nat.and_pow_two_sub_one_eq_mod b 8
  rw [h2, Nat.mod_eq_of_lt h]

/-- A list of four elements, written out. -/
theorem list_length_four {α : Type} (l : List α) (h : l.length = 4) :
    ∃ a b c d, l = [a, b, c, d] := by
  match l, h with
  | [a, b, c, d], _ => exact ⟨a, b, c, d, rfl⟩

/-- A list of sixteen elements, written out. -/
theorem list_length_sixteen {α : Type} (l : List α) (h : l.length = 16) :
    ∃ b0 b1 b2 b3 b4 b5 b6 b7 b8 b9 b10 b11 b12 b13 b14 b15,
      l = [b0, b1, b2, b3, b4, b5, b6, b7, b8, b9, b10, b11, b12, b13, b14, b15] := by
  match l, h with
  | [b0, b1, b2, b3, b4, b5, b6, b7, b8, b9, b10, b11, b12, b13, b14, b15], _ =>
    exact ⟨b0, b1, b2, b3, b4, b5, b6, b7, b8, b9, b10, b11, b12, b13, b14, b15, rfl⟩

/-! ## The loops of `IP.String` never exhaust their rounds -/

/-- One more round changes nothing in the search for the end of a run of zeros
once the rounds cover the distance to `IPv6len`. -/
theorem zeroRunEnd_succ (p : IP) :
    ∀ fuel j : Nat, IPv6len ≤ j + 2 * fuel →
      zeroRunEnd p (fuel + 1) j = zeroRunEnd p fuel j := by
  intro fuel
  induction fuel with
  | zero =>
    intro j h
    have hj : ¬ j < IPv6len := by omega
    simp [zeroRunEnd, hj]
  | succ n ih =>
    intro j h
    rw [zeroRunEnd, zeroRunEnd.eq_def p (n + 1) j]
    simp only
    split
    · exact ih (j + 2) (by omega)
    · rfl

/-- The end of a run of zeros is not before its start. -/
theorem le_zeroRunEnd (p : IP) : ∀ fuel j : Nat, j ≤ zeroRunEnd p fuel j := by
  intro fuel
  induction fuel with
  | zero => intro j; simp [zeroRunEnd]
  | succ n ih =>
    intro j
    rw [zeroRunEnd]
    split
    · exact le_trans (by omega) (ih (j + 2))
    · exact le_rfl

/-- One more round changes nothing in the search for the longest run of zeros
once the rounds cover the distance to `IPv6len`. -/
theorem longestZeroRun_succ (p : IP) :
    ∀ (fuel i : Nat) (e0 e1 : Int), IPv6len ≤ i + 2 * fuel →
      longestZeroRun p (fuel + 1) i e0 e1 = longestZeroRun p fuel i e0 e1 := by
  intro fuel
  induction fuel with
  | zero =>
    intro i e0 e1 h
    have hi : ¬ i < IPv6len := by omega
    simp [longestZeroRun, hi]
  | succ n ih =>
    intro i e0 e1 h
    rw [longestZeroRun, longestZeroRun.eq_def p (n + 1) i]
    simp only
    split
    · have hle := le_zeroRunEnd p 8 i
      split
      · exact ih _ _ _ (by omega)
      · exact ih _ _ _ (by omega)
    · rfl

/-- The run of zeros found by the search is empty (`e0 < 0`) or proper (`e0 < e1`). -/
theorem longestZeroRun_proper (p : IP) :
    ∀ (fuel i : Nat) (e0 e1 : Int), (e0 < 0 ∨ e0 < e1) →
      (longestZeroRun p fuel i e0 e1).1 < 0 ∨
        (longestZeroRun p fuel i e0 e1).1 < (longestZeroRun p fuel i e0 e1).2 := by
  intro fuel
  induction fuel with
  | zero => intro i e0 e1 h; simpa [longestZeroRun] using h
  | succ n ih =>
    intro i e0 e1 h
    rw [longestZeroRun]
    simp only
    split
    · split
      · rename_i hc
        simp only [Bool.and_eq_true, decide_eq_true_eq] at hc
        exact ih _ _ _ (Or.inr (by omega))
      · exact ih _ _ _ h
    · exact h

/-- One more round changes nothing in the printing loop once the rounds cover the
distance to `IPv6len`, for a run of zeros that is empty or proper. -/
theorem printFields_succ (p : IP) (e0 e1 : Int) (hrun : e0 < 0 ∨ e0 < e1) :
    ∀ (fuel i : Nat) (b : String), IPv6len ≤ i + 2 * fuel →
      printFields p e0 e1 (fuel + 1) i b = printFields p e0 e1 fuel i b := by
  intro fuel
  induction fuel with
  | zero =>
    intro i b h
    have hi : ¬ i < IPv6len := by omega
    simp [printFields, hi]
  | succ n ih =>
    intro i b h
    rw [printFields, printFields.eq_def p e0 e1 (n + 1) i]
    simp only
    split
    · split
      · rename_i hc
        have hi : (i : Int) = e0 := by simpa using hc
        split
        · rfl
        · exact ih _ _ (by omega)
      · exact ih _ _ (by omega)
    · rfl

/-- Eight rounds are enough for the rendering of a 16-byte address: any larger
number of rounds gives the same runs of zeros and the same string. -/
theorem colonHex_rounds (p : IP) (k : Nat) :
    (∀ j : Nat, zeroRunEnd p (8 + k) j = zeroRunEnd p 8 j) ∧
    longestZeroRun p (8 + k) 0 (-1) (-1) = longestZeroRun p 8 0 (-1) (-1) ∧
    printFields p (longestZeroRun p 8 0 (-1) (-1)).1 (longestZeroRun p 8 0 (-1) (-1)).2
        (8 + k) 0 "" =
      printFields p (longestZeroRun p 8 0 (-1) (-1)).1 (longestZeroRun p 8 0 (-1) (-1)).2
        8 0 "" ∧
    printFields p (-1) (-1) (8 + k) 0 "" = printFields p (-1) (-1) 8 0 "" := by
  have hrun := longestZeroRun_proper p 8 0 (-1) (-1) (Or.inl (by decide))
  induction k with
  | zero => exact ⟨fun _ => rfl, rfl, rfl, rfl⟩
  | succ n ih =>
    obtain ⟨h1, h2, h3, h4⟩ := ih
    refine ⟨?_, ?_, ?_, ?_⟩
    · intro j
      rw [← h1 j]
      exact zeroRunEnd_succ p (8 + n) j (by simp [IPv6len]; omega)
    · rw [← h2]
      exact longestZeroRun_succ p (8 + n) 0 _ _ (by simp [IPv6len]; omega)
    · rw [← h3]
      exact printFields_succ p _ _ hrun (8 + n) 0 "" (by simp [IPv6len]; omega)
    · rw [← h4]
      exact printFields_succ p _ _ (Or.inl (by decide)) (8 + n) 0 "" (by simp [IPv6len]; omega)

/-- One more round changes nothing in the `%d` conversion of a number that has no
more digits than rounds. -/
theorem fmtInteger_succ :
    ∀ (fuel u : Nat) (buf : List Char), u < 10 ^ (fuel + 1) →
      fmtInteger (fuel + 2) u buf = fmtInteger (fuel + 1) u buf := by
  intro fuel
  induction fuel with
  | zero =>
    intro u buf h
    have hu : ¬ u ≥ 10 := by omega
    simp [fmtInteger, hu]
  | succ n ih =>
    intro u buf h
    rw [fmtInteger, fmtInteger.eq_def (n + 1 + 1) u]
    simp only
    split
    · have hlt : u / 10 < 10 ^ (n + 1) := by
        rw [Nat.div_lt_iff_lt_mul (by decide)]
        rw [pow_succ] at h
        exact h
      exact ih _ _ hlt
    · rfl

/-- Twenty rounds are enough for the `%d` conversion of a 64-bit number. -/
theorem fmtInteger_rounds (u : Nat) (hu : u < 2 ^ 64) (buf : List Char) (k : Nat) :
    fmtInteger (20 + k) u buf = fmtInteger 20 u buf := by
  have h20 : u < 10 ^ 20 := lt_trans hu (by decide)
  induction k with
  | zero => rfl
  | succ n ih =>
    rw [← ih]
    have hlt : u < 10 ^ (19 + n + 1) :=
      lt_of_lt_of_le h20 (Nat.pow_le_pow_right (by decide) (by omega))
    have := fmtInteger_succ (19 + n) u buf hlt
    have e1 : 20 + (n + 1) = 19 + n + 2 := by omega
    have e2 : 20 + n = 19 + n + 1 := by omega
    rw [e1, e2]
    exact this

/-! ## Routability -/

/-- C1: `IsRoutable` holds exactly when `isValid` holds, none of `isRFC1918`,
`isRFC2544`, `isRFC3927`, `isRFC4862`, `isRFC3849`, `isRFC4843`, `isRFC5737`,
`isRFC6598`, `isLocal` holds, and it is not the case that `isRFC4193` holds while
`isOnionCatTor` does not. Membership in RFC3964, RFC4380, RFC6052, RFC6145 or the
Hurricane Electric block does not enter: each of these ranges holds a routable
address, and `8.8.8.8` is routable in both of its representations. -/
theorem IsRoutable_iff_valid_and_unreserved (na : NetAddress) :
    (IsRoutable na = true ↔
      isValid na = true ∧ isRFC1918 na = false ∧ isRFC2544 na = false ∧
      isRFC3927 na = false ∧ isRFC4862 na = false ∧ isRFC3849 na = false ∧
      isRFC4843 na = false ∧ isRFC5737 na = false ∧ isRFC6598 na = false ∧
      isLocal na = false ∧ ¬ (isRFC4193 na = true ∧ isOnionCatTor na = false)) ∧
    IsRoutable ⟨[8, 8, 8, 8]⟩ = true ∧ IsRoutable ⟨IPv4 8 8 8 8⟩ = true ∧
    (isRFC3964 ⟨[0x20, 0x02, 8, 8, 8, 8, 0, 0, 0, 0, 0, 0, 0, 0, 0, 1]⟩ = true ∧
      IsRoutable ⟨[0x20, 0x02, 8, 8, 8, 8, 0, 0, 0, 0, 0, 0, 0, 0, 0, 1]⟩ = true) ∧
    (isRFC4380 ⟨[0x20, 0x01, 0, 0, 8, 8, 8, 8, 0, 0, 0, 0, 0xf7, 0xf7, 0xf7, 0xf7]⟩ = true ∧
      IsRoutable ⟨[0x20, 0x01, 0, 0, 8, 8, 8, 8, 0, 0, 0, 0, 0xf7, 0xf7, 0xf7, 0xf7]⟩ = true) ∧
    (isRFC6052 ⟨[0x00, 0x64, 0xff, 0x9b, 0, 0, 0, 0, 0, 0, 0, 0, 8, 8, 8, 8]⟩ = true ∧
      IsRoutable ⟨[0x00, 0x64, 0xff, 0x9b, 0, 0, 0, 0, 0, 0, 0, 0, 8, 8, 8, 8]⟩ = true) ∧
    (isRFC6145 ⟨[0, 0, 0, 0, 0, 0, 0, 0, 0xff, 0xff, 0, 0, 8, 8, 8, 8]⟩ = true ∧
      IsRoutable ⟨[0, 0, 0, 0, 0, 0, 0, 0, 0xff, 0xff, 0, 0, 8, 8, 8, 8]⟩ = true) ∧
    (heNet.Contains [0x20, 0x01, 0x04, 0x70, 0, 0, 0, 0, 0, 0, 0, 0, 0, 0, 0, 1] = true ∧
      IsRoutable ⟨[0x20, 0x01, 0x04, 0x70, 0, 0, 0, 0, 0, 0, 0, 0, 0, 0, 0, 1]⟩ = true) := by
  refine ⟨?_, by decide, by decide, by decide, by decide, by decide, by decide, by decide⟩
  simp only [IsRoutable, Bool.and_eq_true, Bool.not_eq_true', Bool.or_eq_false_iff,
    Bool.and_eq_false_imp, Bool.not_eq_false', and_assoc, not_and, Bool.not_eq_false]

/-- C2 (as stated, refuted): the 6to4 address `2002:a00:1::` lies in the reserved
range RFC3964 and outside the onion block, and `IsRoutable` returns `true` for it. -/
theorem reserved_range_routable_counterexample :
    isRFC3964 ⟨[0x20, 0x02, 0x0a, 0x00, 0x00, 0x01, 0, 0, 0, 0, 0, 0, 0, 0, 0, 0]⟩ = true ∧
    isOnionCatTor ⟨[0x20, 0x02, 0x0a, 0x00, 0x00, 0x01, 0, 0, 0, 0, 0, 0, 0, 0, 0, 0]⟩ = false ∧
    IsRoutable ⟨[0x20, 0x02, 0x0a, 0x00, 0x00, 0x01, 0, 0, 0, 0, 0, 0, 0, 0, 0, 0]⟩ = true := by
  decide

/-- C2 (amended): an address that lies in one of RFC1918, RFC2544, RFC3849, RFC3927,
RFC4193, RFC4843, RFC4862, RFC5737, RFC6598 and not in the onion block is not
routable. -/
theorem reserved_range_not_routable (na : NetAddress)
    (hrange : isRFC1918 na = true ∨ isRFC2544 na = true ∨ isRFC3849 na = true ∨
      isRFC3927 na = true ∨ isRFC4193 na = true ∨ isRFC4843 na = true ∨
      isRFC4862 na = true ∨ isRFC5737 na = true ∨ isRFC6598 na = true)
    (honion : isOnionCatTor na = false) :
    IsRoutable na = false := by
  unfold IsRoutable
  rcases hrange with h | h | h | h | h | h | h | h | h <;> simp [h, honion]

/-- C2 (amended), at `192.168.1.5`. -/
theorem reserved_range_not_routable_witness :
    isRFC1918 ⟨[192, 168, 1, 5]⟩ = true ∧ isOnionCatTor ⟨[192, 168, 1, 5]⟩ = false ∧
    IsRoutable ⟨[192, 168, 1, 5]⟩ = false :=
  ⟨by decide, by decide,
    reserved_range_not_routable ⟨[192, 168, 1, 5]⟩ (Or.inl (by decide)) (by decide)⟩

/-- C3: every 16-byte address of the onion block `fd87:d87e:eb43::/48` is in
RFC4193 and routable; every 16-byte address of `fc00::/7` (first byte `0xfc` or
`0xfd`) outside the onion block is not routable. -/
theorem rfc4193_onion_carve_out :
    (∀ b6 b7 b8 b9 b10 b11 b12 b13 b14 b15 : Nat,
      isRFC4193 ⟨[0xfd, 0x87, 0xd8, 0x7e, 0xeb, 0x43,
        b6, b7, b8, b9, b10, b11, b12, b13, b14, b15]⟩ = true ∧
      IsRoutable ⟨[0xfd, 0x87, 0xd8, 0x7e, 0xeb, 0x43,
        b6, b7, b8, b9, b10, b11, b12, b13, b14, b15]⟩ = true) ∧
    (∀ b0 b1 b2 b3 b4 b5 b6 b7 b8 b9 b10 b11 b12 b13 b14 b15 : Nat,
      (∀ b ∈ [b0, b1, b2, b3, b4, b5, b6, b7, b8, b9, b10, b11, b12, b13, b14, b15], b < 256) →
      (b0 = 0xfc ∨ b0 = 0xfd) →
      ¬ (b0 = 0xfd ∧ b1 = 0x87 ∧ b2 = 0xd8 ∧ b3 = 0x7e ∧ b4 = 0xeb ∧ b5 = 0x43) →
      IsRoutable
        ⟨[b0, b1, b2, b3, b4, b5, b6, b7, b8, b9, b10, b11, b12, b13, b14, b15]⟩ = false) := by
  refine ⟨?_, ?_⟩
  · intro b6 b7 b8 b9 b10 b11 b12 b13 b14 b15
    constructor
    · simp +decide [isRFC4193, rfc4193Net, ipNet, IPNet.Contains, networkNumberAndMask,
        IP.To4, CIDRMask, cidrMaskLoop, IPv4len, IPv6len, isZeros, subslice, containsLoop]
    · simp +decide [IsRoutable, isValid, isLocal, isRFC1918, isRFC2544, isRFC3927, isRFC4862,
        isRFC3849, isRFC4843, isRFC5737, isRFC6598, isOnionCatTor, isRFC4193, rfc4193Net,
        rfc1918Nets, rfc2544Net, rfc3927Net, rfc4862Net, rfc3849Net, rfc4843Net, rfc5737Net,
        rfc6598Net, zero4Net, onionCatNet, ipNet, IPNet.Contains, networkNumberAndMask,
        IP.To4, IP.Equal, IP.IsUnspecified, IP.IsLoopback, IPv4, IPv4zero, IPv4bcast,
        IPv6unspecified, IPv6loopback, v4InV6Prefix, CIDRMask, cidrMaskLoop, IPv4len,
        IPv6len, isZeros, subslice, containsLoop]
  · intro b0 b1 b2 b3 b4 b5 b6 b7 b8 b9 b10 b11 b12 b13 b14 b15 hb h7 hon
    simp only [List.mem_cons, List.mem_singleton, forall_eq_or_imp, forall_eq,
      List.not_mem_nil] at hb
    obtain ⟨-, h1, h2, h3, h4, h5, -⟩ := hb
    have h4193 : isRFC4193
        ⟨[b0, b1, b2, b3, b4, b5, b6, b7, b8, b9, b10, b11, b12, b13, b14, b15]⟩ = true := by
      rcases h7 with rfl | rfl <;>
      simp +decide [isRFC4193, rfc4193Net, ipNet, IPNet.Contains, networkNumberAndMask,
        IP.To4, CIDRMask, cidrMaskLoop, IPv4len, IPv6len, isZeros, subslice, containsLoop]
    have honion : isOnionCatTor
        ⟨[b0, b1, b2, b3, b4, b5, b6, b7, b8, b9, b10, b11, b12, b13, b14, b15]⟩ = false := by
      rcases h7 with rfl | rfl <;>
      simp +decide [isOnionCatTor, onionCatNet, ipNet, IPNet.Contains, networkNumberAndMask,
        IP.To4, CIDRMask, cidrMaskLoop, IPv4len, IPv6len, isZeros, subslice, containsLoop,
        and_255_of_byte, *]
      simpa [eq_comm] using hon
    simp [IsRoutable, h4193, honion]

/-- C3, at the onion-block neighbour `fd00::1`. -/
theorem rfc4193_onion_carve_out_witness :
    IsRoutable ⟨[0xfd, 0, 0, 0, 0, 0, 0, 0, 0, 0, 0, 0, 0, 0, 0, 1]⟩ = false :=
  rfc4193_onion_carve_out.2 0xfd 0 0 0 0 0 0 0 0 0 0 0 0 0 0 1
    (by decide) (by decide) (by decide)

/-! ## Group keys derived from an IPv4 address -/

/-- On a byte, `ubtoa` is the decimal rendering of the number. -/
theorem ubtoa_eq_toString : ∀ v : Nat, v < 256 → ubtoa v = toString v := by
  decide

/-- On a byte, the `%d` conversion is the decimal rendering of the number. -/
theorem fmtInteger_eq_toString :
    ∀ v : Nat, v < 256 → String.mk (fmtInteger 20 v []) = toString v := by
  decide

/-- The complement of a byte is a byte. -/
theorem xor_255_lt {b : Nat} (h : b < 256) : b ^^^ 255 < 256 :=
  Nat.xor_lt_two_pow (n := 8) h (by decide)

/-- The dotted-decimal rendering of `a.b.0.0`. -/
theorem dottedQuad_masked (a b : Nat) (ha : a < 256) (hb : b < 256) :
    dottedQuad [a, b, 0, 0] = toString a ++ "." ++ toString b ++ ".0.0" := by
  have h0 : ubtoa 0 = "0" := by decide
  have h2 : "." ++ ("0" ++ ("." ++ "0")) = ".0.0" := by decide
  simp only [dottedQuad, List.getD_cons_zero, List.getD_cons_succ, h0,
    ubtoa_eq_toString a ha, ubtoa_eq_toString b hb, String.append_assoc, h2]

/-- C4: for a routable IPv4 address `a.b.c.d`, as 4 bytes or in the 16-byte
IPv4-mapped form, `GroupKey` is the dotted quad `a.b.0.0`, the numbers in decimal
without leading zeros. -/
theorem GroupKey_ipv4 (a b c d : Nat) (ha : a < 256) (hb : b < 256) :
    (IsRoutable ⟨[a, b, c, d]⟩ = true →
      GroupKey ⟨[a, b, c, d]⟩ = some (toString a ++ "." ++ toString b ++ ".0.0")) ∧
    (IsRoutable ⟨IPv4 a b c d⟩ = true →
      GroupKey ⟨IPv4 a b c d⟩ = some (toString a ++ "." ++ toString b ++ ".0.0")) := by
  constructor
  · intro hr
    have hl : isLocal ⟨[a, b, c, d]⟩ = false := by
      cases h : isLocal ⟨[a, b, c, d]⟩
      · rfl
      · simp [IsRoutable, h] at hr
    have hm : IP.Mask [a, b, c, d] (CIDRMask 16 32) = [a, b, 0, 0] := by
      simp +decide [IP.Mask, CIDRMask, cidrMaskLoop, IPv4len, IPv6len, allFF, subslice,
        and_255_of_byte, ha, hb]
    have hs : IP.String [a, b, 0, 0] = dottedQuad [a, b, 0, 0] := by
      simp +decide [IP.String, IP.To4, IPv4len]
    simp only [GroupKey, hl, hr, isIPv4, hm, hs, dottedQuad_masked a b ha hb]
    simp +decide [IP.To4, IPv4len]
  · intro hr
    have hl : isLocal ⟨IPv4 a b c d⟩ = false := by
      cases h : isLocal ⟨IPv4 a b c d⟩
      · rfl
      · simp [IsRoutable, h] at hr
    have hm : IP.Mask (IPv4 a b c d) (CIDRMask 16 32) = [a, b, 0, 0] := by
      simp +decide [IP.Mask, CIDRMask, cidrMaskLoop, IPv4, v4InV6Prefix, IPv4len, IPv6len,
        allFF, subslice, and_255_of_byte, ha, hb]
    have hs : IP.String [a, b, 0, 0] = dottedQuad [a, b, 0, 0] := by
      simp +decide [IP.String, IP.To4, IPv4len]
    simp only [GroupKey, hl, hr, isIPv4, hm, hs, dottedQuad_masked a b ha hb]
    simp +decide [IP.To4, IPv4, v4InV6Prefix, IPv4len, IPv6len, isZeros, subslice]

/-- C4, at `8.8.8.8`: the group key is `8.8.0.0`. -/
theorem GroupKey_ipv4_witness :
    IsRoutable ⟨[8, 8, 8, 8]⟩ = true ∧ GroupKey ⟨[8, 8, 8, 8]⟩ = some "8.8.0.0" :=
  ⟨by decide, ((GroupKey_ipv4 8 8 8 8 (by decide) (by decide)).1 (by decide)).trans (by decide)⟩

/-- C5: for a 16-byte Teredo address (prefix `2001:0000::/32`) `GroupKey` is the
dotted quad made of the complements of bytes 12 and 13 followed by `.0.0`; when
bytes 12 to 15 decode to `1.2.3.4` it is `1.2.0.0`, the key of the IPv4 address
`1.2.3.4`. -/
theorem GroupKey_teredo (b4 b5 b6 b7 b8 b9 b10 b11 b12 b13 b14 b15 : Nat)
    (h12 : b12 < 256) (h13 : b13 < 256) :
    GroupKey ⟨[0x20, 0x01, 0, 0, b4, b5, b6, b7, b8, b9, b10, b11, b12, b13, b14, b15]⟩ =
      some (toString (b12 ^^^ 0xff) ++ "." ++ toString (b13 ^^^ 0xff) ++ ".0.0") ∧
    GroupKey ⟨[0x20, 0x01, 0, 0, b4, b5, b6, b7, b8, b9, b10, b11, 0xfe, 0xfd, 0xfc, 0xfb]⟩ =
      some "1.2.0.0" ∧
    GroupKey ⟨[1, 2, 3, 4]⟩ = some "1.2.0.0" := by
  have key : ∀ c12 c13 c14 c15 : Nat, c12 < 256 → c13 < 256 →
      GroupKey ⟨[0x20, 0x01, 0, 0, b4, b5, b6, b7, b8, b9, b10, b11, c12, c13, c14, c15]⟩ =
        some (dottedQuad [c12 ^^^ 0xff, c13 ^^^ 0xff, 0, 0]) := by
    intro c12 c13 c14 c15 hc12 hc13
    have hx12 := and_255_of_byte (xor_255_lt hc12)
    have hx13 := and_255_of_byte (xor_255_lt hc13)
    simp +decide [GroupKey, sliceChecked, isIPv4, isRFC6145, isRFC6052, isRFC3964, isRFC4380,
      rfc6145Net, rfc6052Net, rfc3964Net, rfc4380Net, IP.Mask, IP.String, IsRoutable,
      isValid, isLocal, isRFC1918, isRFC2544, isRFC3927, isRFC4862, isRFC3849, isRFC4843,
      isRFC5737, isRFC6598, isOnionCatTor, isRFC4193, rfc4193Net, rfc1918Nets, rfc2544Net,
      rfc3927Net, rfc4862Net, rfc3849Net, rfc4843Net, rfc5737Net, rfc6598Net, zero4Net,
      onionCatNet, ipNet, IPNet.Contains, networkNumberAndMask, IP.To4, IP.Equal,
      IP.IsUnspecified, IP.IsLoopback, IPv4, IPv4zero, IPv4bcast, IPv6unspecified,
      IPv6loopback, v4InV6Prefix, CIDRMask, cidrMaskLoop, IPv4len, IPv6len, isZeros, allFF,
      subslice, containsLoop, hx12, hx13]
  refine ⟨?_, ?_, by decide⟩
  · rw [key b12 b13 b14 b15 h12 h13,
      dottedQuad_masked _ _ (xor_255_lt h12) (xor_255_lt h13)]
  · rw [key 0xfe 0xfd 0xfc 0xfb (by decide) (by decide)]
    decide

/-- C5, at the Teredo address `2001:0:1::fefd:fcfb`. -/
theorem GroupKey_teredo_witness :
    GroupKey ⟨[0x20, 0x01, 0, 0, 0, 1, 0, 0, 0, 0, 0, 0, 0xfe, 0xfd, 0xfc, 0xfb]⟩ =
      some "1.2.0.0" :=
  ((GroupKey_teredo 0 1 0 0 0 0 0 0 0xfe 0xfd 0xfc 0xfb (by decide) (by decide)).1).trans
    (by decide)

/-- C6: for a 16-byte 6to4 address (prefix `2002::/16`) none of the steps local,
unroutable, IPv4, RFC6145/RFC6052 fires, and `GroupKey` is the dotted quad made
of bytes 2 and 3 followed by `.0.0`. -/
theorem GroupKey_6to4 (b2 b3 b4 b5 b6 b7 b8 b9 b10 b11 b12 b13 b14 b15 : Nat)
    (h2 : b2 < 256) (h3 : b3 < 256) :
    isLocal ⟨[0x20, 0x02, b2, b3, b4, b5, b6, b7, b8, b9, b10, b11, b12, b13, b14, b15]⟩ = false ∧
    IsRoutable ⟨[0x20, 0x02, b2, b3, b4, b5, b6, b7, b8, b9, b10, b11, b12, b13, b14, b15]⟩
      = true ∧
    isIPv4 ⟨[0x20, 0x02, b2, b3, b4, b5, b6, b7, b8, b9, b10, b11, b12, b13, b14, b15]⟩ = false ∧
    isRFC6145 ⟨[0x20, 0x02, b2, b3, b4, b5, b6, b7, b8, b9, b10, b11, b12, b13, b14, b15]⟩
      = false ∧
    isRFC6052 ⟨[0x20, 0x02, b2, b3, b4, b5, b6, b7, b8, b9, b10, b11, b12, b13, b14, b15]⟩
      = false ∧
    GroupKey ⟨[0x20, 0x02, b2, b3, b4, b5, b6, b7, b8, b9, b10, b11, b12, b13, b14, b15]⟩ =
      some (toString b2 ++ "." ++ toString b3 ++ ".0.0") := by
  have h2m := and_255_of_byte h2
  have h3m := and_255_of_byte h3
  have hd := dottedQuad_masked b2 b3 h2 h3
  simp only [dottedQuad, List.getD_cons_zero, List.getD_cons_succ] at hd
  rw [← hd]
  simp +decide [GroupKey, sliceChecked, isIPv4, isRFC6145, isRFC6052, isRFC3964, isRFC4380,
    rfc6145Net, rfc6052Net, rfc3964Net, rfc4380Net, IP.Mask, IP.String, dottedQuad, IsRoutable,
    isValid, isLocal, isRFC1918, isRFC2544, isRFC3927, isRFC4862, isRFC3849, isRFC4843,
    isRFC5737, isRFC6598, isOnionCatTor, isRFC4193, rfc4193Net, rfc1918Nets, rfc2544Net,
    rfc3927Net, rfc4862Net, rfc3849Net, rfc4843Net, rfc5737Net, rfc6598Net, zero4Net,
    onionCatNet, ipNet, IPNet.Contains, networkNumberAndMask, IP.To4, IP.Equal,
    IP.IsUnspecified, IP.IsLoopback, IPv4, IPv4zero, IPv4bcast, IPv6unspecified,
    IPv6loopback, v4InV6Prefix, CIDRMask, cidrMaskLoop, IPv4len, IPv6len, isZeros, allFF,
    subslice, containsLoop, h2m, h3m]

/-- C6, at the 6to4 address `2002:808:808::1`. -/
theorem GroupKey_6to4_witness :
    GroupKey ⟨[0x20, 0x02, 8, 8, 8, 8, 0, 0, 0, 0, 0, 0, 0, 0, 0, 1]⟩ = some "8.8.0.0" :=
  ((GroupKey_6to4 8 8 8 8 0 0 0 0 0 0 0 0 0 1 (by decide) (by decide)).2.2.2.2.2).trans
    (by decide)

/-- C7: for a 16-byte address of the RFC6052 block `64:ff9b::/96` or of the
RFC6145 block `::ffff:0:0:0/96`, `GroupKey` is the dotted quad made of bytes 12
and 13 followed by `.0.0`. -/
theorem GroupKey_nat64 (b12 b13 b14 b15 : Nat) (h12 : b12 < 256) (h13 : b13 < 256) :
    GroupKey ⟨[0x00, 0x64, 0xff, 0x9b, 0, 0, 0, 0, 0, 0, 0, 0, b12, b13, b14, b15]⟩ =
      some (toString b12 ++ "." ++ toString b13 ++ ".0.0") ∧
    GroupKey ⟨[0, 0, 0, 0, 0, 0, 0, 0, 0xff, 0xff, 0, 0, b12, b13, b14, b15]⟩ =
      some (toString b12 ++ "." ++ toString b13 ++ ".0.0") := by
  have h12m := and_255_of_byte h12
  have h13m := and_255_of_byte h13
  have hd := dottedQuad_masked b12 b13 h12 h13
  simp only [dottedQuad, List.getD_cons_zero, List.getD_cons_succ] at hd
  rw [← hd]
  constructor <;>
  simp +decide [GroupKey, sliceChecked, isIPv4, isRFC6145, isRFC6052, isRFC3964, isRFC4380,
    rfc6145Net, rfc6052Net, rfc3964Net, rfc4380Net, IP.Mask, IP.String, dottedQuad, IsRoutable,
    isValid, isLocal, isRFC1918, isRFC2544, isRFC3927, isRFC4862, isRFC3849, isRFC4843,
    isRFC5737, isRFC6598, isOnionCatTor, isRFC4193, rfc4193Net, rfc1918Nets, rfc2544Net,
    rfc3927Net, rfc4862Net, rfc3849Net, rfc4843Net, rfc5737Net, rfc6598Net, zero4Net,
    onionCatNet, ipNet, IPNet.Contains, networkNumberAndMask, IP.To4, IP.Equal,
    IP.IsUnspecified, IP.IsLoopback, IPv4, IPv4zero, IPv4bcast, IPv6unspecified,
    IPv6loopback, v4InV6Prefix, CIDRMask, cidrMaskLoop, IPv4len, IPv6len, isZeros, allFF,
    subslice, containsLoop, h12m, h13m]

/-- C7, at `64:ff9b::808:808` and `::ffff:0:808:808`. -/
theorem GroupKey_nat64_witness :
    GroupKey ⟨[0x00, 0x64, 0xff, 0x9b, 0, 0, 0, 0, 0, 0, 0, 0, 8, 8, 8, 8]⟩ = some "8.8.0.0" ∧
    GroupKey ⟨[0, 0, 0, 0, 0, 0, 0, 0, 0xff, 0xff, 0, 0, 8, 8, 8, 8]⟩ = some "8.8.0.0" :=
  ⟨((GroupKey_nat64 8 8 8 8 (by decide) (by decide)).1).trans (by decide),
    ((GroupKey_nat64 8 8 8 8 (by decide) (by decide)).2).trans (by decide)⟩

/-! ## Group keys of onion, local and plain IPv6 addresses -/

/-- The low nibble of a number is below 16. -/
theorem and_15_lt (b : Nat) : b &&& 15 < 16 := by
  have h : b &&& 15 = b % 16 := Nat.and_pow_two_sub_one_eq_mod b 4
  rw [h]
  exact Nat.mod_lt b (by decide)

/-- The keys `tor:N` of two nibbles are equal only for equal nibbles. -/
theorem tor_key_injective :
    ∀ x : Nat, x < 16 → ∀ y : Nat, y < 16 →
      "tor:" ++ toString x = "tor:" ++ toString y → x = y := by
  decide

/-- C8: for a 16-byte onion-encoded address (first six bytes `fd 87 d8 7e eb 43`)
`GroupKey` is `tor:` followed by the decimal rendering of the low nibble of byte
6, a number below 16; two onion-encoded addresses have the same key exactly when
the low nibbles of their bytes 6 are equal. -/
theorem GroupKey_onion (b6 b7 b8 b9 b10 b11 b12 b13 b14 b15 : Nat)
    (c6 c7 c8 c9 c10 c11 c12 c13 c14 c15 : Nat) :
    GroupKey ⟨[0xfd, 0x87, 0xd8, 0x7e, 0xeb, 0x43,
        b6, b7, b8, b9, b10, b11, b12, b13, b14, b15]⟩ =
      some ("tor:" ++ toString (b6 &&& 0x0f)) ∧
    b6 &&& 0x0f < 16 ∧
    (GroupKey ⟨[0xfd, 0x87, 0xd8, 0x7e, 0xeb, 0x43,
        b6, b7, b8, b9, b10, b11, b12, b13, b14, b15]⟩ =
      GroupKey ⟨[0xfd, 0x87, 0xd8, 0x7e, 0xeb, 0x43,
        c6, c7, c8, c9, c10, c11, c12, c13, c14, c15]⟩ ↔
      b6 &&& 0x0f = c6 &&& 0x0f) := by
  have key : ∀ d6 d7 d8 d9 d10 d11 d12 d13 d14 d15 : Nat,
      GroupKey ⟨[0xfd, 0x87, 0xd8, 0x7e, 0xeb, 0x43,
        d6, d7, d8, d9, d10, d11, d12, d13, d14, d15]⟩ =
      some ("tor:" ++ toString (d6 &&& 0x0f)) := by
    intro d6 d7 d8 d9 d10 d11 d12 d13 d14 d15
    have hlt : d6 &&& 15 < 256 := lt_trans (and_15_lt d6) (by decide)
    rw [← fmtInteger_eq_toString (d6 &&& 15) hlt]
    simp +decide [GroupKey, sliceChecked, isIPv4, isRFC6145, isRFC6052, isRFC3964, isRFC4380,
      rfc6145Net, rfc6052Net, rfc3964Net, rfc4380Net, IP.Mask, IP.String, IsRoutable,
      isValid, isLocal, isRFC1918, isRFC2544, isRFC3927, isRFC4862, isRFC3849, isRFC4843,
      isRFC5737, isRFC6598, isOnionCatTor, isRFC4193, rfc4193Net, rfc1918Nets, rfc2544Net,
      rfc3927Net, rfc4862Net, rfc3849Net, rfc4843Net, rfc5737Net, rfc6598Net, zero4Net,
      onionCatNet, ipNet, IPNet.Contains, networkNumberAndMask, IP.To4, IP.Equal,
      IP.IsUnspecified, IP.IsLoopback, IPv4, IPv4zero, IPv4bcast, IPv6unspecified,
      IPv6loopback, v4InV6Prefix, CIDRMask, cidrMaskLoop, IPv4len, IPv6len, isZeros, allFF,
      subslice, containsLoop]
  refine ⟨key _ _ _ _ _ _ _ _ _ _, and_15_lt b6, ?_⟩
  rw [key, key]
  constructor
  · intro h
    exact tor_key_injective _ (and_15_lt b6) _ (and_15_lt c6) (Option.some.inj h)
  · intro h
    rw [h]

/-- C10: an address for which `isLocal` holds has the group key `local`; `isLocal`
holds for `127.0.0.1` and for every `0.x.y.z`, in the 4-byte and in the
IPv4-mapped form, among them `0.0.0.0`, which is not valid. -/
theorem GroupKey_local :
    (∀ na : NetAddress, isLocal na = true → GroupKey na = some "local") ∧
    isLocal ⟨[127, 0, 0, 1]⟩ = true ∧ isLocal ⟨IPv4 127 0 0 1⟩ = true ∧
    (∀ x y z : Nat, isLocal ⟨[0, x, y, z]⟩ = true ∧ isLocal ⟨IPv4 0 x y z⟩ = true) ∧
    isValid ⟨[0, 0, 0, 0]⟩ = false ∧ isValid ⟨IPv4 0 0 0 0⟩ = false := by
  refine ⟨?_, by decide, by decide, ?_, by decide, by decide⟩
  · intro na h
    simp [GroupKey, h]
  · intro x y z
    constructor <;>
    simp +decide [isLocal, zero4Net, ipNet, IPNet.Contains, networkNumberAndMask, IP.To4,
      IP.IsLoopback, IP.Equal, IPv4, IPv4zero, IPv6loopback, v4InV6Prefix, CIDRMask,
      cidrMaskLoop, IPv4len, IPv6len, isZeros, subslice, containsLoop]

/-- C10, at `127.0.0.1` and at `0.0.0.0`. -/
theorem GroupKey_local_witness :
    GroupKey ⟨[127, 0, 0, 1]⟩ = some "local" ∧ GroupKey ⟨[0, 0, 0, 0]⟩ = some "local" :=
  ⟨GroupKey_local.1 ⟨[127, 0, 0, 1]⟩ (by decide),
    GroupKey_local.1 ⟨[0, 0, 0, 0]⟩ ((GroupKey_local.2.2.2.1 0 0 0).1)⟩

/-- For an address that is not an IPv4 address, `Contains` compares it with the
network number as it stands. -/
theorem Contains_of_To4_nil (n : IPNet) (ip : IP) (h : ip.To4 = []) :
    n.Contains ip =
      (if ip.length != (networkNumberAndMask n).1.length then false
       else containsLoop (networkNumberAndMask n).1 (networkNumberAndMask n).2 ip) := by
  simp [IPNet.Contains, h]

/-- The network number and the mask of the Hurricane Electric block. -/
theorem networkNumberAndMask_heNet :
    networkNumberAndMask heNet =
      ([0x20, 0x01, 0x04, 0x70, 0, 0, 0, 0, 0, 0, 0, 0, 0, 0, 0, 0],
       [255, 255, 255, 255, 0, 0, 0, 0, 0, 0, 0, 0, 0, 0, 0, 0]) := by
  decide

/-- C9: for a routable 16-byte address that is not an IPv4 address and is in none
of RFC6145, RFC6052, RFC3964, RFC4380 and the onion block: when its first four
bytes are `20 01 04 70` (Hurricane Electric) `GroupKey` is the colon-hexadecimal
rendering of the address with byte 4 masked by `0xf0` and bytes 5 to 15 zeroed;
otherwise it is the colon-hexadecimal rendering of the address with bytes 4 to 15
zeroed. -/
theorem GroupKey_plain_ipv6
    (b0 b1 b2 b3 b4 b5 b6 b7 b8 b9 b10 b11 b12 b13 b14 b15 : Nat)
    (hb : ∀ b ∈ [b0, b1, b2, b3, b4, b5, b6, b7, b8, b9, b10, b11, b12, b13, b14, b15], b < 256)
    (hr : IsRoutable
      ⟨[b0, b1, b2, b3, b4, b5, b6, b7, b8, b9, b10, b11, b12, b13, b14, b15]⟩ = true)
    (h4 : isIPv4
      ⟨[b0, b1, b2, b3, b4, b5, b6, b7, b8, b9, b10, b11, b12, b13, b14, b15]⟩ = false)
    (h6145 : isRFC6145
      ⟨[b0, b1, b2, b3, b4, b5, b6, b7, b8, b9, b10, b11, b12, b13, b14, b15]⟩ = false)
    (h6052 : isRFC6052
      ⟨[b0, b1, b2, b3, b4, b5, b6, b7, b8, b9, b10, b11, b12, b13, b14, b15]⟩ = false)
    (h3964 : isRFC3964
      ⟨[b0, b1, b2, b3, b4, b5, b6, b7, b8, b9, b10, b11, b12, b13, b14, b15]⟩ = false)
    (h4380 : isRFC4380
      ⟨[b0, b1, b2, b3, b4, b5, b6, b7, b8, b9, b10, b11, b12, b13, b14, b15]⟩ = false)
    (honion : isOnionCatTor
      ⟨[b0, b1, b2, b3, b4, b5, b6, b7, b8, b9, b10, b11, b12, b13, b14, b15]⟩ = false) :
    GroupKey ⟨[b0, b1, b2, b3, b4, b5, b6, b7, b8, b9, b10, b11, b12, b13, b14, b15]⟩ =
      some (if b0 = 0x20 ∧ b1 = 0x01 ∧ b2 = 0x04 ∧ b3 = 0x70
        then colonHex [b0, b1, b2, b3, b4 &&& 0xf0, 0, 0, 0, 0, 0, 0, 0, 0, 0, 0, 0]
        else colonHex [b0, b1, b2, b3, 0, 0, 0, 0, 0, 0, 0, 0, 0, 0, 0, 0]) := by
  simp only [List.mem_cons, List.mem_singleton, forall_eq_or_imp, forall_eq,
    List.not_mem_nil] at hb
  obtain ⟨h0, h1, h2, h3, -⟩ := hb
  have hl : isLocal
      ⟨[b0, b1, b2, b3, b4, b5, b6, b7, b8, b9, b10, b11, b12, b13, b14, b15]⟩ = false := by
    cases h : isLocal
        ⟨[b0, b1, b2, b3, b4, b5, b6, b7, b8, b9, b10, b11, b12, b13, b14, b15]⟩
    · rfl
    · simp [IsRoutable, h] at hr
  have hto4 : IP.To4
      [b0, b1, b2, b3, b4, b5, b6, b7, b8, b9, b10, b11, b12, b13, b14, b15] = [] := by
    simpa [isIPv4] using h4
  have hhe : heNet.Contains
      [b0, b1, b2, b3, b4, b5, b6, b7, b8, b9, b10, b11, b12, b13, b14, b15] =
      decide (b0 = 0x20 ∧ b1 = 0x01 ∧ b2 = 0x04 ∧ b3 = 0x70) := by
    rw [Contains_of_To4_nil _ _ hto4, networkNumberAndMask_heNet]
    simp +decide [containsLoop, and_255_of_byte, h0, h1, h2, h3]
    simp only [@eq_comm Nat 32 b0, @eq_comm Nat 1 b1, @eq_comm Nat 4 b2, @eq_comm Nat 112 b3]
  have hs : ∀ c0 c1 c2 c3 c4 : Nat,
      IP.String [c0, c1, c2, c3, c4, 0, 0, 0, 0, 0, 0, 0, 0, 0, 0, 0] =
        colonHex [c0, c1, c2, c3, c4, 0, 0, 0, 0, 0, 0, 0, 0, 0, 0, 0] := by
    intro c0 c1 c2 c3 c4
    simp +decide [IP.String, IP.To4, IPv4len, IPv6len, isZeros, subslice]
  simp only [GroupKey, hl, hr, h4, h6145, h6052, h3964, h4380, honion, hhe]
  by_cases hc : b0 = 0x20 ∧ b1 = 0x01 ∧ b2 = 0x04 ∧ b3 = 0x70
  · have hm : IP.Mask [b0, b1, b2, b3, b4, b5, b6, b7, b8, b9, b10, b11, b12, b13, b14, b15]
        (CIDRMask 36 128) = [b0, b1, b2, b3, b4 &&& 0xf0, 0, 0, 0, 0, 0, 0, 0, 0, 0, 0, 0] := by
      simp +decide [IP.Mask, CIDRMask, cidrMaskLoop, IPv4len, IPv6len, allFF, subslice,
        and_255_of_byte, h0, h1, h2, h3]
    rw [if_pos hc]
    simp only [decide_eq_true hc, Bool.false_eq_true, if_false, if_true, Bool.not_true,
      Bool.or_self, hm, hs]
  · have hm : IP.Mask [b0, b1, b2, b3, b4, b5, b6, b7, b8, b9, b10, b11, b12, b13, b14, b15]
        (CIDRMask 32 128) = [b0, b1, b2, b3, 0, 0, 0, 0, 0, 0, 0, 0, 0, 0, 0, 0] := by
      simp +decide [IP.Mask, CIDRMask, cidrMaskLoop, IPv4len, IPv6len, allFF, subslice,
        and_255_of_byte, h0, h1, h2, h3]
    rw [if_neg hc]
    simp only [decide_eq_false hc, Bool.false_eq_true, if_false, if_true, Bool.not_true,
      Bool.or_self, hm, hs]

/-- C9, at `2001:470:1234::1` (Hurricane Electric, grouped at `/36`) and at
`2a00:1450:4001::1` (grouped at `/32`). -/
theorem GroupKey_plain_ipv6_witness :
    GroupKey ⟨[0x20, 0x01, 0x04, 0x70, 0x12, 0x34, 0, 0, 0, 0, 0, 0, 0, 0, 0, 1]⟩ =
      some "2001:470:1000::" ∧
    GroupKey ⟨[0x2a, 0x00, 0x14, 0x50, 0x40, 0x01, 0, 0, 0, 0, 0, 0, 0, 0, 0, 1]⟩ =
      some "2a00:1450::" :=
  ⟨(GroupKey_plain_ipv6 0x20 0x01 0x04 0x70 0x12 0x34 0 0 0 0 0 0 0 0 0 1 (by decide)
      (by decide) (by decide) (by decide) (by decide) (by decide) (by decide)
      (by decide)).trans (by decide),
    (GroupKey_plain_ipv6 0x2a 0x00 0x14 0x50 0x40 0x01 0 0 0 0 0 0 0 0 0 1 (by decide)
      (by decide) (by decide) (by decide) (by decide) (by decide) (by decide)
      (by decide)).trans (by decide)⟩

/-! ## The two representations of an IPv4 address -/

/-- A 4-byte address is its own 4-byte form. -/
theorem To4_four (a b c d : Nat) : IP.To4 [a, b, c, d] = [a, b, c, d] := by
  simp [IP.To4, IPv4len]

/-- The 4-byte form of an IPv4-mapped address. -/
theorem To4_IPv4 (a b c d : Nat) : IP.To4 (IPv4 a b c d) = [a, b, c, d] := by
  simp +decide [IP.To4, IPv4, v4InV6Prefix, IPv4len, IPv6len, isZeros, subslice]

/-- A 16-byte address has no 4-byte form or is IPv4-mapped. -/
theorem To4_sixteen (ip : IP) (h : ip.length = 16) :
    ip.To4 = [] ∨ ∃ a b c d, ip = IPv4 a b c d := by
  obtain ⟨b0, b1, b2, b3, b4, b5, b6, b7, b8, b9, b10, b11, b12, b13, b14, b15, rfl⟩ :=
    list_length_sixteen ip h
  by_cases hm : (b0 = 0 ∧ b1 = 0 ∧ b2 = 0 ∧ b3 = 0 ∧ b4 = 0 ∧ b5 = 0 ∧ b6 = 0 ∧ b7 = 0 ∧
      b8 = 0 ∧ b9 = 0) ∧ b10 = 255 ∧ b11 = 255
  · obtain ⟨⟨rfl, rfl, rfl, rfl, rfl, rfl, rfl, rfl, rfl, rfl⟩, rfl, rfl⟩ := hm
    exact Or.inr ⟨b12, b13, b14, b15, rfl⟩
  · left
    simp +decide [IP.To4, IPv4len, IPv6len, isZeros, subslice]
    intro h0 h1 h2 h3 h4 h5 h6 h7 h8 h9 h10 h11
    exact absurd ⟨⟨h0, h1, h2, h3, h4, h5, h6, h7, h8, h9⟩, h10, h11⟩ hm

/-- An address with a 4-byte form is tested for membership through that form. -/
theorem Contains_IPv4 (n : IPNet) (a b c d : Nat) :
    n.Contains (IPv4 a b c d) = n.Contains [a, b, c, d] := by
  simp [IPNet.Contains, To4_IPv4, To4_four]

/-- Both representations of an IPv4 address pass `isIPv4`. -/
theorem isIPv4_four (a b c d : Nat) :
    isIPv4 ⟨[a, b, c, d]⟩ = true ∧ isIPv4 ⟨IPv4 a b c d⟩ = true := by
  simp [isIPv4, To4_four, To4_IPv4]

/-- The loopback test sees an IPv4-mapped address through its 4-byte form. -/
theorem IsLoopback_IPv4 (a b c d : Nat) :
    IP.IsLoopback (IPv4 a b c d) = IP.IsLoopback [a, b, c, d] := by
  simp [IP.IsLoopback, To4_IPv4, To4_four]

/-- Validity does not depend on the representation of an IPv4 address. -/
theorem isValid_IPv4 (a b c d : Nat) :
    isValid ⟨IPv4 a b c d⟩ = isValid ⟨[a, b, c, d]⟩ := by
  have h1 : ∀ (x : Nat) (l : List Nat), ((x :: l) != []) = true := fun _ _ => rfl
  simp +decide [isValid, IP.IsUnspecified, IP.Equal, IPv4, IPv4zero, IPv4bcast,
    IPv6unspecified, v4InV6Prefix, IPv4len, IPv6len, subslice, h1]

/-- Locality does not depend on the representation of an IPv4 address. -/
theorem isLocal_IPv4 (a b c d : Nat) :
    isLocal ⟨IPv4 a b c d⟩ = isLocal ⟨[a, b, c, d]⟩ := by
  simp only [isLocal, IsLoopback_IPv4, Contains_IPv4]

/-- Routability does not depend on the representation of an IPv4 address. -/
theorem IsRoutable_IPv4 (a b c d : Nat) :
    IsRoutable ⟨IPv4 a b c d⟩ = IsRoutable ⟨[a, b, c, d]⟩ := by
  simp only [IsRoutable, isValid_IPv4, isLocal_IPv4, isRFC1918, isRFC2544, isRFC3927,
    isRFC4862, isRFC3849, isRFC4843, isRFC5737, isRFC6598, isRFC4193, isOnionCatTor,
    Contains_IPv4]

/-- Masking to `/16` does not depend on the representation of an IPv4 address. -/
theorem Mask16_IPv4 (a b c d : Nat) :
    IP.Mask (IPv4 a b c d) (CIDRMask 16 32) = IP.Mask [a, b, c, d] (CIDRMask 16 32) := by
  simp +decide [IP.Mask, CIDRMask, cidrMaskLoop, IPv4, v4InV6Prefix, IPv4len, IPv6len,
    allFF, subslice]

/-- C20: the 4-byte address `[a, b, c, d]` and the IPv4-mapped address
`::ffff:a.b.c.d` get the same result from `isValid`, `isLocal`, `IsRoutable` and
`GroupKey`. -/
theorem representation_independence (a b c d : Nat) :
    isValid ⟨[a, b, c, d]⟩ = isValid ⟨IPv4 a b c d⟩ ∧
    isLocal ⟨[a, b, c, d]⟩ = isLocal ⟨IPv4 a b c d⟩ ∧
    IsRoutable ⟨[a, b, c, d]⟩ = IsRoutable ⟨IPv4 a b c d⟩ ∧
    GroupKey ⟨[a, b, c, d]⟩ = GroupKey ⟨IPv4 a b c d⟩ := by
  refine ⟨(isValid_IPv4 a b c d).symm, (isLocal_IPv4 a b c d).symm,
    (IsRoutable_IPv4 a b c d).symm, ?_⟩
  simp only [GroupKey, isLocal_IPv4, IsRoutable_IPv4, (isIPv4_four a b c d).1,
    (isIPv4_four a b c d).2, Mask16_IPv4, if_true]

/-! ## Validity and locality -/

/-- Addresses of equal length are `Equal` when their bytes are. -/
theorem Equal_same_length (ip x : IP) (h : ip.length = x.length) :
    ip.Equal x = (ip == x) := by
  simp [IP.Equal, h]

/-- C13: on a 4-byte or 16-byte address `isValid` returns false exactly for the
unspecified address (`0.0.0.0` as 4 bytes or IPv4-mapped, or `::`) and for the
limited broadcast address `255.255.255.255` (as 4 bytes or IPv4-mapped); it
returns true for every address of the documentation block `2001:db8::/32`. -/
theorem isValid_false_iff :
    (∀ ip : IP, (ip.length = 4 ∨ ip.length = 16) →
      (isValid ⟨ip⟩ = false ↔
        ip = [0, 0, 0, 0] ∨ ip = IPv4 0 0 0 0 ∨ ip = IPv6unspecified ∨
        ip = [255, 255, 255, 255] ∨ ip = IPv4 255 255 255 255)) ∧
    (∀ b4 b5 b6 b7 b8 b9 b10 b11 b12 b13 b14 b15 : Nat,
      isRFC3849 ⟨[0x20, 0x01, 0x0d, 0xb8, b4, b5, b6, b7, b8, b9, b10, b11, b12, b13, b14, b15]⟩
        = true ∧
      isValid ⟨[0x20, 0x01, 0x0d, 0xb8, b4, b5, b6, b7, b8, b9, b10, b11, b12, b13, b14, b15]⟩
        = true) := by
  have h1 : ∀ (x : Nat) (l : List Nat), ((x :: l) != []) = true := fun _ _ => rfl
  refine ⟨?_, ?_⟩
  · intro ip hlen
    rcases hlen with h | h
    · obtain ⟨a, b, c, d, rfl⟩ := list_length_four ip h
      simp +decide [isValid, IP.IsUnspecified, IP.Equal, IPv4, IPv4zero, IPv4bcast,
        IPv6unspecified, v4InV6Prefix, IPv4len, IPv6len, subslice, h1]
      tauto
    · have hne : (ip != []) = true := by
        cases ip with
        | nil => simp at h
        | cons x l => rfl
      have e1 : ip.Equal IPv4zero = (ip == IPv4zero) := Equal_same_length ip _ (by rw [h]; rfl)
      have e2 : ip.Equal IPv6unspecified = (ip == IPv6unspecified) :=
        Equal_same_length ip _ (by rw [h]; rfl)
      have e3 : ip.Equal IPv4bcast = (ip == IPv4bcast) := Equal_same_length ip _ (by rw [h]; rfl)
      have n1 : ip ≠ [0, 0, 0, 0] := by rintro rfl; simp at h
      have n2 : ip ≠ [255, 255, 255, 255] := by rintro rfl; simp at h
      have hz : IPv4 0 0 0 0 = IPv4zero := rfl
      have hb : IPv4 255 255 255 255 = IPv4bcast := rfl
      simp only [isValid, IP.IsUnspecified, e1, e2, e3, hne, hz, hb, Bool.true_and,
        Bool.not_eq_false', Bool.or_eq_true, beq_iff_eq]
      tauto
  · intro b4 b5 b6 b7 b8 b9 b10 b11 b12 b13 b14 b15
    constructor
    · simp +decide [isRFC3849, rfc3849Net, ipNet, IPNet.Contains, networkNumberAndMask,
        IP.To4, CIDRMask, cidrMaskLoop, IPv4len, IPv6len, isZeros, subslice, containsLoop]
    · simp +decide [isValid, IP.IsUnspecified, IP.Equal, IPv4, IPv4zero, IPv4bcast,
        IPv6unspecified, v4InV6Prefix, IPv4len, IPv6len, subslice, h1]

/-- C13, at `0.0.0.0` and at the IPv4-mapped broadcast address. -/
theorem isValid_false_iff_witness :
    isValid ⟨[0, 0, 0, 0]⟩ = false ∧ isValid ⟨IPv4 255 255 255 255⟩ = false :=
  ⟨((isValid_false_iff.1 [0, 0, 0, 0] (Or.inl rfl)).2 (Or.inl rfl)),
    ((isValid_false_iff.1 (IPv4 255 255 255 255) (Or.inr rfl)).2
      (Or.inr (Or.inr (Or.inr (Or.inr rfl)))))⟩

/-- C12: `IsRoutable` returns false for the unspecified address as `0.0.0.0` (4
bytes), as `::ffff:0.0.0.0` and as `::`, and for the limited broadcast address
`255.255.255.255` as 4 bytes and IPv4-mapped. -/
theorem IsRoutable_unspecified_broadcast :
    IsRoutable ⟨[0, 0, 0, 0]⟩ = false ∧
    IsRoutable ⟨IPv4 0 0 0 0⟩ = false ∧
    IsRoutable ⟨[0, 0, 0, 0, 0, 0, 0, 0, 0, 0, 0, 0, 0, 0, 0, 0]⟩ = false ∧
    IsRoutable ⟨[255, 255, 255, 255]⟩ = false ∧
    IsRoutable ⟨IPv4 255 255 255 255⟩ = false := by
  decide

/-- C14 (the code at a documentation address): `2001:db8::1` lies in the RFC3849
block and `isValid` returns true for it, where the comment of `isValid` counts an
RFC3849 address as invalid. -/
theorem isValid_documentation_address :
    isRFC3849 ⟨[0x20, 0x01, 0x0d, 0xb8, 0, 0, 0, 0, 0, 0, 0, 0, 0, 0, 0, 1]⟩ = true ∧
    isValid ⟨[0x20, 0x01, 0x0d, 0xb8, 0, 0, 0, 0, 0, 0, 0, 0, 0, 0, 0, 1]⟩ = true := by
  decide

/-- A network given by an IPv4 number contains no address without 4-byte form. -/
theorem Contains_v4net_of_To4_nil (n : IPNet) (ip : IP)
    (hn : (networkNumberAndMask n).1.length = 4) (h16 : ip.length = 16) (h : ip.To4 = []) :
    n.Contains ip = false := by
  rw [Contains_of_To4_nil n ip h, hn, h16]
  rfl

/-- A network given by an IPv6 number contains no 4-byte address. -/
theorem Contains_v6net_four (n : IPNet) (a b c d : Nat)
    (hn : (networkNumberAndMask n).1.length = 16) :
    n.Contains [a, b, c, d] = false := by
  simp [IPNet.Contains, To4_four, hn]

/-- An address without 4-byte form is a loopback address when it is `::1`. -/
theorem IsLoopback_of_To4_nil (ip : IP) (h16 : ip.length = 16) (h : ip.To4 = []) :
    ip.IsLoopback = (ip == IPv6loopback) := by
  simp only [IP.IsLoopback, h]
  exact Equal_same_length ip _ (by rw [h16]; rfl)

/-- C16: for an IPv4 address `a.b.c.d`, as 4 bytes or IPv4-mapped, `isLocal` holds
exactly when `a = 127` or `a = 0`; for a 16-byte address that is not IPv4-mapped
it holds exactly when the address is `::1`; it does not hold for `::`. -/
theorem isLocal_iff :
    (∀ a b c d : Nat, a < 256 →
      ((isLocal ⟨[a, b, c, d]⟩ = true ↔ a = 127 ∨ a = 0) ∧
       (isLocal ⟨IPv4 a b c d⟩ = true ↔ a = 127 ∨ a = 0))) ∧
    (∀ ip : IP, ip.length = 16 → (∀ a b c d : Nat, ip ≠ IPv4 a b c d) →
      (isLocal ⟨ip⟩ = true ↔ ip = IPv6loopback)) ∧
    isLocal ⟨IPv6unspecified⟩ = false := by
  refine ⟨?_, ?_, by decide⟩
  · intro a b c d ha
    have h4 : (isLocal ⟨[a, b, c, d]⟩ = true ↔ a = 127 ∨ a = 0) := by
      simp +decide [isLocal, zero4Net, ipNet, IPNet.Contains, networkNumberAndMask, IP.To4,
        IP.IsLoopback, IPv4, v4InV6Prefix, CIDRMask, cidrMaskLoop, IPv4len, IPv6len,
        isZeros, subslice, containsLoop, and_255_of_byte ha]
      constructor
      · rintro (h | h)
        · exact Or.inl h
        · exact Or.inr h.symm
      · rintro (h | h)
        · exact Or.inl h
        · exact Or.inr h.symm
    exact ⟨h4, by rw [isLocal_IPv4]; exact h4⟩
  · intro ip h16 hmapped
    have hto4 : ip.To4 = [] := by
      rcases To4_sixteen ip h16 with h | ⟨a, b, c, d, h⟩
      · exact h
      · exact absurd h (hmapped a b c d)
    have hz : zero4Net.Contains ip = false :=
      Contains_v4net_of_To4_nil _ _ (by decide) h16 hto4
    simp [isLocal, IsLoopback_of_To4_nil ip h16 hto4, hz]

/-- C16, at `127.0.0.1` and at `::1`. -/
theorem isLocal_iff_witness :
    isLocal ⟨[127, 0, 0, 1]⟩ = true ∧ isLocal ⟨IPv6loopback⟩ = true :=
  ⟨((isLocal_iff.1 127 0 0 1 (by decide)).1).2 (Or.inl rfl),
    (isLocal_iff.2.1 IPv6loopback rfl (by intro a b c d; simp [IPv6loopback, IPv4, v4InV6Prefix])).2 rfl⟩

/-! ## Membership tests in terms of bytes -/

/-- C17: `isOnionCatTor` holds exactly for the 16-byte addresses whose first six
bytes are `fd 87 d8 7e eb 43`, whatever the other ten bytes; it holds for no
4-byte address. -/
theorem isOnionCatTor_iff :
    (∀ ip : IP, (∀ b ∈ ip, b < 256) →
      (isOnionCatTor ⟨ip⟩ = true ↔
        ip.length = 16 ∧ ip.take 6 = [0xfd, 0x87, 0xd8, 0x7e, 0xeb, 0x43])) ∧
    (∀ a b c d : Nat, isOnionCatTor ⟨[a, b, c, d]⟩ = false) := by
  have hnm : networkNumberAndMask onionCatNet =
      ([0xfd, 0x87, 0xd8, 0x7e, 0xeb, 0x43, 0, 0, 0, 0, 0, 0, 0, 0, 0, 0],
       [255, 255, 255, 255, 255, 255, 0, 0, 0, 0, 0, 0, 0, 0, 0, 0]) := by decide
  have h4 : ∀ a b c d : Nat, isOnionCatTor ⟨[a, b, c, d]⟩ = false := fun a b c d =>
    Contains_v6net_four _ a b c d (by rw [hnm]; rfl)
  refine ⟨?_, h4⟩
  intro ip hb
  by_cases h16 : ip.length = 16
  · rcases To4_sixteen ip h16 with hto4 | ⟨a, b, c, d, rfl⟩
    · obtain ⟨b0, b1, b2, b3, b4, b5, b6, b7, b8, b9, b10, b11, b12, b13, b14, b15, rfl⟩ :=
        list_length_sixteen ip h16
      simp only [List.mem_cons, List.mem_singleton, forall_eq_or_imp, forall_eq,
        List.not_mem_nil] at hb
      obtain ⟨h0, h1, h2, h3, h4, h5, -⟩ := hb
      simp only [isOnionCatTor, Contains_of_To4_nil _ _ hto4, hnm]
      simp +decide [containsLoop, and_255_of_byte, h0, h1, h2, h3, h4, h5]
      simp only [@eq_comm Nat 253 b0, @eq_comm Nat 135 b1, @eq_comm Nat 216 b2,
        @eq_comm Nat 126 b3, @eq_comm Nat 235 b4, @eq_comm Nat 67 b5]
    · have hf : isOnionCatTor ⟨IPv4 a b c d⟩ = false := by
        simp only [isOnionCatTor, Contains_IPv4]
        exact h4 a b c d
      rw [hf]
      simp +decide [IPv4, v4InV6Prefix]
  · have hf : isOnionCatTor ⟨ip⟩ = false := by
      by_cases h4len : ip.length = 4
      · obtain ⟨a, b, c, d, rfl⟩ := list_length_four ip h4len
        exact h4 a b c d
      · have hto4 : ip.To4 = [] := by simp [IP.To4, IPv4len, IPv6len, h4len, h16]
        rw [isOnionCatTor, Contains_of_To4_nil _ _ hto4, hnm]
        simp [h16]
    simp [hf, h16]

/-- C17, at the onion-encoded address `fd87:d87e:eb43::1`. -/
theorem isOnionCatTor_iff_witness :
    isOnionCatTor ⟨[0xfd, 0x87, 0xd8, 0x7e, 0xeb, 0x43, 0, 0, 0, 0, 0, 0, 0, 0, 0, 1]⟩ = true :=
  (isOnionCatTor_iff.1 [0xfd, 0x87, 0xd8, 0x7e, 0xeb, 0x43, 0, 0, 0, 0, 0, 0, 0, 0, 0, 1]
    (by decide)).2 ⟨rfl, rfl⟩

/-- The bytes with high nibble 1 are those from 16 to 31. -/
theorem and_240_eq_16_iff : ∀ b : Nat, b < 256 → (b &&& 240 = 16 ↔ 16 ≤ b ∧ b ≤ 31) := by
  decide

/-- C18: for an IPv4 address `a.b.c.d`, as 4 bytes or IPv4-mapped, `isRFC1918`
holds exactly when `a = 10`, or `a = 172` and `16 ≤ b ≤ 31`, or `a = 192` and
`b = 168`; `isRFC5737` holds exactly when `(a, b, c)` is `(192, 0, 2)`,
`(198, 51, 100)` or `(203, 0, 113)`. Both fail on every 16-byte address that is
not IPv4-mapped. -/
theorem isRFC1918_isRFC5737_iff :
    (∀ a b c d : Nat, a < 256 → b < 256 → c < 256 →
      (isRFC1918 ⟨[a, b, c, d]⟩ = true ↔
        a = 10 ∨ (a = 172 ∧ 16 ≤ b ∧ b ≤ 31) ∨ (a = 192 ∧ b = 168)) ∧
      (isRFC1918 ⟨IPv4 a b c d⟩ = true ↔
        a = 10 ∨ (a = 172 ∧ 16 ≤ b ∧ b ≤ 31) ∨ (a = 192 ∧ b = 168)) ∧
      (isRFC5737 ⟨[a, b, c, d]⟩ = true ↔
        (a = 192 ∧ b = 0 ∧ c = 2) ∨ (a = 198 ∧ b = 51 ∧ c = 100) ∨
        (a = 203 ∧ b = 0 ∧ c = 113)) ∧
      (isRFC5737 ⟨IPv4 a b c d⟩ = true ↔
        (a = 192 ∧ b = 0 ∧ c = 2) ∨ (a = 198 ∧ b = 51 ∧ c = 100) ∨
        (a = 203 ∧ b = 0 ∧ c = 113))) ∧
    (∀ ip : IP, ip.length = 16 → (∀ a b c d : Nat, ip ≠ IPv4 a b c d) →
      isRFC1918 ⟨ip⟩ = false ∧ isRFC5737 ⟨ip⟩ = false) := by
  refine ⟨?_, ?_⟩
  · intro a b c d ha hb hc
    have e16 : (16 = b &&& 240) ↔ (16 ≤ b ∧ b ≤ 31) := by
      rw [eq_comm]
      exact and_240_eq_16_iff b hb
    have h1918 : (isRFC1918 ⟨[a, b, c, d]⟩ = true ↔
        a = 10 ∨ (a = 172 ∧ 16 ≤ b ∧ b ≤ 31) ∨ (a = 192 ∧ b = 168)) := by
      simp +decide [isRFC1918, rfc1918Nets, ipNet, IPNet.Contains, networkNumberAndMask,
        IP.To4, IPv4, v4InV6Prefix, CIDRMask, cidrMaskLoop, IPv4len, IPv6len, isZeros,
        subslice, containsLoop, and_255_of_byte ha, and_255_of_byte hb,
        (by decide : 10 &&& 255 = 10), (by decide : 172 &&& 255 = 172),
        (by decide : 192 &&& 255 = 192), (by decide : 168 &&& 255 = 168),
        (by decide : 16 &&& 240 = 16), e16]
      omega
    have h5737 : (isRFC5737 ⟨[a, b, c, d]⟩ = true ↔
        (a = 192 ∧ b = 0 ∧ c = 2) ∨ (a = 198 ∧ b = 51 ∧ c = 100) ∨
        (a = 203 ∧ b = 0 ∧ c = 113)) := by
      simp +decide [isRFC5737, rfc5737Net, ipNet, IPNet.Contains, networkNumberAndMask,
        IP.To4, IPv4, v4InV6Prefix, CIDRMask, cidrMaskLoop, IPv4len, IPv6len, isZeros,
        subslice, containsLoop, and_255_of_byte ha, and_255_of_byte hb, and_255_of_byte hc,
        (by decide : 192 &&& 255 = 192), (by decide : 198 &&& 255 = 198),
        (by decide : 203 &&& 255 = 203), (by decide : 2 &&& 255 = 2),
        (by decide : 51 &&& 255 = 51), (by decide : 100 &&& 255 = 100),
        (by decide : 113 &&& 255 = 113)]
      omega
    refine ⟨h1918, ?_, h5737, ?_⟩
    · simp only [isRFC1918, Contains_IPv4] at h1918 ⊢
      exact h1918
    · simp only [isRFC5737, Contains_IPv4] at h5737 ⊢
      exact h5737
  · intro ip h16 hmapped
    have hto4 : ip.To4 = [] := by
      rcases To4_sixteen ip h16 with h | ⟨a, b, c, d, h⟩
      · exact h
      · exact absurd h (hmapped a b c d)
    constructor
    · simp only [isRFC1918, rfc1918Nets, List.any_cons, List.any_nil, Bool.or_false,
        Bool.or_eq_false_iff]
      exact ⟨Contains_v4net_of_To4_nil _ ip (by decide) h16 hto4,
        Contains_v4net_of_To4_nil _ ip (by decide) h16 hto4,
        Contains_v4net_of_To4_nil _ ip (by decide) h16 hto4⟩
    · simp only [isRFC5737, rfc5737Net, List.any_cons, List.any_nil, Bool.or_false,
        Bool.or_eq_false_iff]
      exact ⟨Contains_v4net_of_To4_nil _ ip (by decide) h16 hto4,
        Contains_v4net_of_To4_nil _ ip (by decide) h16 hto4,
        Contains_v4net_of_To4_nil _ ip (by decide) h16 hto4⟩

/-- C18, at `172.20.1.1`, at `198.51.100.7` and at `2001:db8::1`. -/
theorem isRFC1918_isRFC5737_iff_witness :
    isRFC1918 ⟨[172, 20, 1, 1]⟩ = true ∧ isRFC5737 ⟨[198, 51, 100, 7]⟩ = true ∧
    isRFC1918 ⟨[0x20, 0x01, 0x0d, 0xb8, 0, 0, 0, 0, 0, 0, 0, 0, 0, 0, 0, 1]⟩ = false :=
  ⟨((isRFC1918_isRFC5737_iff.1 172 20 1 1 (by decide) (by decide) (by decide)).1).2
      (Or.inr (Or.inl ⟨rfl, by decide, by decide⟩)),
    ((isRFC1918_isRFC5737_iff.1 198 51 100 7 (by decide) (by decide) (by decide)).2.2.1).2
      (Or.inr (Or.inl ⟨rfl, rfl, rfl⟩)),
    (isRFC1918_isRFC5737_iff.2 [0x20, 0x01, 0x0d, 0xb8, 0, 0, 0, 0, 0, 0, 0, 0, 0, 0, 0, 1] rfl
      (by intro a b c d; simp [IPv4, v4InV6Prefix])).1⟩

/-- Byte facts behind the masks `/15`, `/10`, `/7` and `/28`. -/
theorem mask_byte_facts : ∀ b : Nat, b < 256 →
    ((18 = b &&& 254) ↔ (b = 18 ∨ b = 19)) ∧
    ((64 = b &&& 192) ↔ (64 ≤ b ∧ b ≤ 127)) ∧
    ((252 = b &&& 254) ↔ (b = 252 ∨ b = 253)) ∧
    ((16 = b &&& 240) ↔ (16 ≤ b ∧ b ≤ 31)) := by
  decide

/-- The sixteen range tests on a 4-byte address, in terms of its bytes. -/
theorem tests_four (a b c d : Nat) (ha : a < 256) (hb : b < 256) (hc : c < 256) :
    (isRFC1918 ⟨[a, b, c, d]⟩ = true ↔
      a = 10 ∨ (a = 172 ∧ 16 ≤ b ∧ b ≤ 31) ∨ (a = 192 ∧ b = 168)) ∧
    (isRFC2544 ⟨[a, b, c, d]⟩ = true ↔ a = 198 ∧ (b = 18 ∨ b = 19)) ∧
    (isRFC3927 ⟨[a, b, c, d]⟩ = true ↔ a = 169 ∧ b = 254) ∧
    (isRFC5737 ⟨[a, b, c, d]⟩ = true ↔
      (a = 192 ∧ b = 0 ∧ c = 2) ∨ (a = 198 ∧ b = 51 ∧ c = 100) ∨
      (a = 203 ∧ b = 0 ∧ c = 113)) ∧
    (isRFC6598 ⟨[a, b, c, d]⟩ = true ↔ a = 100 ∧ 64 ≤ b ∧ b ≤ 127) ∧
    (isLocal ⟨[a, b, c, d]⟩ = true ↔ a = 127 ∨ a = 0) ∧
    isRFC3849 ⟨[a, b, c, d]⟩ = false ∧ isRFC3964 ⟨[a, b, c, d]⟩ = false ∧
    isRFC4193 ⟨[a, b, c, d]⟩ = false ∧ isRFC4380 ⟨[a, b, c, d]⟩ = false ∧
    isRFC4843 ⟨[a, b, c, d]⟩ = false ∧ isRFC4862 ⟨[a, b, c, d]⟩ = false ∧
    isRFC6052 ⟨[a, b, c, d]⟩ = false ∧ isRFC6145 ⟨[a, b, c, d]⟩ = false ∧
    isOnionCatTor ⟨[a, b, c, d]⟩ = false ∧ heNet.Contains [a, b, c, d] = false := by
  obtain ⟨f15, f10, -, f12⟩ := mask_byte_facts b hb
  refine ⟨?_, ?_, ?_, ?_, ?_, ?_, Contains_v6net_four _ a b c d (by decide),
    Contains_v6net_four _ a b c d (by decide), Contains_v6net_four _ a b c d (by decide),
    Contains_v6net_four _ a b c d (by decide), Contains_v6net_four _ a b c d (by decide),
    Contains_v6net_four _ a b c d (by decide), Contains_v6net_four _ a b c d (by decide),
    Contains_v6net_four _ a b c d (by decide), Contains_v6net_four _ a b c d (by decide),
    Contains_v6net_four _ a b c d (by decide)⟩
  · simp +decide [isRFC1918, rfc1918Nets, ipNet, IPNet.Contains, networkNumberAndMask,
      IP.To4, IPv4, v4InV6Prefix, CIDRMask, cidrMaskLoop, IPv4len, IPv6len, isZeros,
      subslice, containsLoop, and_255_of_byte, ha, hb,
      (by decide : 16 &&& 240 = 16), f12]
    omega
  · simp +decide [isRFC2544, rfc2544Net, ipNet, IPNet.Contains, networkNumberAndMask,
      IP.To4, IPv4, v4InV6Prefix, CIDRMask, cidrMaskLoop, IPv4len, IPv6len, isZeros,
      subslice, containsLoop, and_255_of_byte, ha, hb, (by decide : 18 &&& 254 = 18), f15]
    omega
  · simp +decide [isRFC3927, rfc3927Net, ipNet, IPNet.Contains, networkNumberAndMask,
      IP.To4, IPv4, v4InV6Prefix, CIDRMask, cidrMaskLoop, IPv4len, IPv6len, isZeros,
      subslice, containsLoop, and_255_of_byte, ha, hb]
    omega
  · simp +decide [isRFC5737, rfc5737Net, ipNet, IPNet.Contains, networkNumberAndMask,
      IP.To4, IPv4, v4InV6Prefix, CIDRMask, cidrMaskLoop, IPv4len, IPv6len, isZeros,
      subslice, containsLoop, and_255_of_byte, ha, hb, hc]
    omega
  · simp +decide [isRFC6598, rfc6598Net, ipNet, IPNet.Contains, networkNumberAndMask,
      IP.To4, IPv4, v4InV6Prefix, CIDRMask, cidrMaskLoop, IPv4len, IPv6len, isZeros,
      subslice, containsLoop, and_255_of_byte, ha, hb, (by decide : 64 &&& 192 = 64), f10]
    omega
  · simp +decide [isLocal, zero4Net, ipNet, IPNet.Contains, networkNumberAndMask, IP.To4,
      IP.IsLoopback, IPv4, v4InV6Prefix, CIDRMask, cidrMaskLoop, IPv4len, IPv6len,
      isZeros, subslice, containsLoop, and_255_of_byte, ha]
    omega

/-- The tests against IPv4 ranges fail on a 16-byte address that is not
IPv4-mapped. -/
theorem v4_tests_of_To4_nil (ip : IP) (h16 : ip.length = 16) (hto4 : ip.To4 = []) :
    isRFC1918 ⟨ip⟩ = false ∧ isRFC2544 ⟨ip⟩ = false ∧ isRFC3927 ⟨ip⟩ = false ∧
    isRFC5737 ⟨ip⟩ = false ∧ isRFC6598 ⟨ip⟩ = false ∧ zero4Net.Contains ip = false := by
  have hv4 := fun (n : IPNet) (hn : (networkNumberAndMask n).1.length = 4) =>
    Contains_v4net_of_To4_nil n ip hn h16 hto4
  refine ⟨?_, hv4 _ (by decide), hv4 _ (by decide), ?_, hv4 _ (by decide),
    hv4 _ (by decide)⟩
  · simp only [isRFC1918, rfc1918Nets, List.any_cons, List.any_nil, Bool.or_false,
      Bool.or_eq_false_iff]
    exact ⟨hv4 _ (by decide), hv4 _ (by decide), hv4 _ (by decide)⟩
  · simp only [isRFC5737, rfc5737Net, List.any_cons, List.any_nil, Bool.or_false,
      Bool.or_eq_false_iff]
    exact ⟨hv4 _ (by decide), hv4 _ (by decide), hv4 _ (by decide)⟩

/-- The sixteen range tests on a 16-byte address that is not IPv4-mapped, in
terms of its bytes. -/
theorem tests_sixteen (b0 b1 b2 b3 b4 b5 b6 b7 b8 b9 b10 b11 b12 b13 b14 b15 : Nat)
    (hb : ∀ b ∈ [b0, b1, b2, b3, b4, b5, b6, b7, b8, b9, b10, b11, b12, b13, b14, b15], b < 256)
    (hto4 : IP.To4 [b0, b1, b2, b3, b4, b5, b6, b7, b8, b9, b10, b11, b12, b13, b14, b15] = []) :
    (isRFC3849 ⟨[b0, b1, b2, b3, b4, b5, b6, b7, b8, b9, b10, b11, b12, b13, b14, b15]⟩ = true ↔
      b0 = 0x20 ∧ b1 = 0x01 ∧ b2 = 0x0d ∧ b3 = 0xb8) ∧
    (isRFC3964 ⟨[b0, b1, b2, b3, b4, b5, b6, b7, b8, b9, b10, b11, b12, b13, b14, b15]⟩ = true ↔
      b0 = 0x20 ∧ b1 = 0x02) ∧
    (isRFC4193 ⟨[b0, b1, b2, b3, b4, b5, b6, b7, b8, b9, b10, b11, b12, b13, b14, b15]⟩ = true ↔
      b0 = 0xfc ∨ b0 = 0xfd) ∧
    (isRFC4380 ⟨[b0, b1, b2, b3, b4, b5, b6, b7, b8, b9, b10, b11, b12, b13, b14, b15]⟩ = true ↔
      b0 = 0x20 ∧ b1 = 0x01 ∧ b2 = 0 ∧ b3 = 0) ∧
    (isRFC4843 ⟨[b0, b1, b2, b3, b4, b5, b6, b7, b8, b9, b10, b11, b12, b13, b14, b15]⟩ = true ↔
      b0 = 0x20 ∧ b1 = 0x01 ∧ b2 = 0 ∧ 16 ≤ b3 ∧ b3 ≤ 31) ∧
    (isRFC4862 ⟨[b0, b1, b2, b3, b4, b5, b6, b7, b8, b9, b10, b11, b12, b13, b14, b15]⟩ = true ↔
      b0 = 0xfe ∧ b1 = 0x80 ∧ b2 = 0 ∧ b3 = 0 ∧ b4 = 0 ∧ b5 = 0 ∧ b6 = 0 ∧ b7 = 0) ∧
    (isRFC6052 ⟨[b0, b1, b2, b3, b4, b5, b6, b7, b8, b9, b10, b11, b12, b13, b14, b15]⟩ = true ↔
      b0 = 0 ∧ b1 = 0x64 ∧ b2 = 0xff ∧ b3 = 0x9b ∧ b4 = 0 ∧ b5 = 0 ∧ b6 = 0 ∧ b7 = 0 ∧
      b8 = 0 ∧ b9 = 0 ∧ b10 = 0 ∧ b11 = 0) ∧
    (isRFC6145 ⟨[b0, b1, b2, b3, b4, b5, b6, b7, b8, b9, b10, b11, b12, b13, b14, b15]⟩ = true ↔
      b0 = 0 ∧ b1 = 0 ∧ b2 = 0 ∧ b3 = 0 ∧ b4 = 0 ∧ b5 = 0 ∧ b6 = 0 ∧ b7 = 0 ∧
      b8 = 0xff ∧ b9 = 0xff ∧ b10 = 0 ∧ b11 = 0) ∧
    (isOnionCatTor
      ⟨[b0, b1, b2, b3, b4, b5, b6, b7, b8, b9, b10, b11, b12, b13, b14, b15]⟩ = true ↔
      b0 = 0xfd ∧ b1 = 0x87 ∧ b2 = 0xd8 ∧ b3 = 0x7e ∧ b4 = 0xeb ∧ b5 = 0x43) ∧
    (isLocal ⟨[b0, b1, b2, b3, b4, b5, b6, b7, b8, b9, b10, b11, b12, b13, b14, b15]⟩ = true ↔
      b0 = 0 ∧ b1 = 0 ∧ b2 = 0 ∧ b3 = 0 ∧ b4 = 0 ∧ b5 = 0 ∧ b6 = 0 ∧ b7 = 0 ∧
      b8 = 0 ∧ b9 = 0 ∧ b10 = 0 ∧ b11 = 0 ∧ b12 = 0 ∧ b13 = 0 ∧ b14 = 0 ∧ b15 = 1) ∧
    (heNet.Contains [b0, b1, b2, b3, b4, b5, b6, b7, b8, b9, b10, b11, b12, b13, b14, b15] = true ↔
      b0 = 0x20 ∧ b1 = 0x01 ∧ b2 = 0x04 ∧ b3 = 0x70) ∧
    isRFC1918 ⟨[b0, b1, b2, b3, b4, b5, b6, b7, b8, b9, b10, b11, b12, b13, b14, b15]⟩ = false ∧
    isRFC2544 ⟨[b0, b1, b2, b3, b4, b5, b6, b7, b8, b9, b10, b11, b12, b13, b14, b15]⟩ = false ∧
    isRFC3927 ⟨[b0, b1, b2, b3, b4, b5, b6, b7, b8, b9, b10, b11, b12, b13, b14, b15]⟩ = false ∧
    isRFC5737 ⟨[b0, b1, b2, b3, b4, b5, b6, b7, b8, b9, b10, b11, b12, b13, b14, b15]⟩ = false ∧
    isRFC6598 ⟨[b0, b1, b2, b3, b4, b5, b6, b7, b8, b9, b10, b11, b12, b13, b14, b15]⟩
      = false := by
  obtain ⟨v1918, v2544, v3927, v5737, v6598, hz⟩ := v4_tests_of_To4_nil
    [b0, b1, b2, b3, b4, b5, b6, b7, b8, b9, b10, b11, b12, b13, b14, b15] rfl hto4
  simp only [List.mem_cons, List.mem_singleton, forall_eq_or_imp, forall_eq,
    List.not_mem_nil] at hb
  obtain ⟨h0, h1, h2, h3, h4, h5, h6, h7, h8, h9, h10, h11, -⟩ := hb
  obtain ⟨-, -, f7, -⟩ := mask_byte_facts b0 h0
  obtain ⟨-, -, -, f28⟩ := mask_byte_facts b3 h3
  refine ⟨?_, ?_, ?_, ?_, ?_, ?_, ?_, ?_, ?_, ?_, ?_, v1918, v2544, v3927, v5737, v6598⟩
  · simp only [isRFC3849, Contains_of_To4_nil _ _ hto4,
      (by decide : networkNumberAndMask rfc3849Net =
        ([0x20, 0x01, 0x0d, 0xb8, 0, 0, 0, 0, 0, 0, 0, 0, 0, 0, 0, 0],
         [255, 255, 255, 255, 0, 0, 0, 0, 0, 0, 0, 0, 0, 0, 0, 0]))]
    simp +decide [containsLoop, and_255_of_byte, h0, h1, h2, h3]
    omega
  · simp only [isRFC3964, Contains_of_To4_nil _ _ hto4,
      (by decide : networkNumberAndMask rfc3964Net =
        ([0x20, 0x02, 0, 0, 0, 0, 0, 0, 0, 0, 0, 0, 0, 0, 0, 0],
         [255, 255, 0, 0, 0, 0, 0, 0, 0, 0, 0, 0, 0, 0, 0, 0]))]
    simp +decide [containsLoop, and_255_of_byte, h0, h1]
    omega
  · simp only [isRFC4193, Contains_of_To4_nil _ _ hto4,
      (by decide : networkNumberAndMask rfc4193Net =
        ([0xfc, 0, 0, 0, 0, 0, 0, 0, 0, 0, 0, 0, 0, 0, 0, 0],
         [254, 0, 0, 0, 0, 0, 0, 0, 0, 0, 0, 0, 0, 0, 0, 0]))]
    simp +decide [containsLoop, (by decide : 252 &&& 254 = 252), f7]
  · simp only [isRFC4380, Contains_of_To4_nil _ _ hto4,
      (by decide : networkNumberAndMask rfc4380Net =
        ([0x20, 0x01, 0, 0, 0, 0, 0, 0, 0, 0, 0, 0, 0, 0, 0, 0],
         [255, 255, 255, 255, 0, 0, 0, 0, 0, 0, 0, 0, 0, 0, 0, 0]))]
    simp +decide [containsLoop, and_255_of_byte, h0, h1, h2, h3]
    omega
  · simp only [isRFC4843, Contains_of_To4_nil _ _ hto4,
      (by decide : networkNumberAndMask rfc4843Net =
        ([0x20, 0x01, 0x00, 0x10, 0, 0, 0, 0, 0, 0, 0, 0, 0, 0, 0, 0],
         [255, 255, 255, 240, 0, 0, 0, 0, 0, 0, 0, 0, 0, 0, 0, 0]))]
    simp +decide [containsLoop, and_255_of_byte, h0, h1, h2, (by decide : 16 &&& 240 = 16), f28]
    omega
  · simp only [isRFC4862, Contains_of_To4_nil _ _ hto4,
      (by decide : networkNumberAndMask rfc4862Net =
        ([0xfe, 0x80, 0, 0, 0, 0, 0, 0, 0, 0, 0, 0, 0, 0, 0, 0],
         [255, 255, 255, 255, 255, 255, 255, 255, 0, 0, 0, 0, 0, 0, 0, 0]))]
    simp +decide [containsLoop, and_255_of_byte, h0, h1, h2, h3, h4, h5, h6, h7]
    omega
  · simp only [isRFC6052, Contains_of_To4_nil _ _ hto4,
      (by decide : networkNumberAndMask rfc6052Net =
        ([0x00, 0x64, 0xff, 0x9b, 0, 0, 0, 0, 0, 0, 0, 0, 0, 0, 0, 0],
         [255, 255, 255, 255, 255, 255, 255, 255, 255, 255, 255, 255, 0, 0, 0, 0]))]
    simp +decide [containsLoop, and_255_of_byte, h0, h1, h2, h3, h4, h5, h6, h7, h8, h9,
      h10, h11]
    omega
  · simp only [isRFC6145, Contains_of_To4_nil _ _ hto4,
      (by decide : networkNumberAndMask rfc6145Net =
        ([0, 0, 0, 0, 0, 0, 0, 0, 0xff, 0xff, 0, 0, 0, 0, 0, 0],
         [255, 255, 255, 255, 255, 255, 255, 255, 255, 255, 255, 255, 0, 0, 0, 0]))]
    simp +decide [containsLoop, and_255_of_byte, h0, h1, h2, h3, h4, h5, h6, h7, h8, h9,
      h10, h11]
    omega
  · simp only [isOnionCatTor, Contains_of_To4_nil _ _ hto4,
      (by decide : networkNumberAndMask onionCatNet =
        ([0xfd, 0x87, 0xd8, 0x7e, 0xeb, 0x43, 0, 0, 0, 0, 0, 0, 0, 0, 0, 0],
         [255, 255, 255, 255, 255, 255, 0, 0, 0, 0, 0, 0, 0, 0, 0, 0]))]
    simp +decide [containsLoop, and_255_of_byte, h0, h1, h2, h3, h4, h5]
    omega
  · have hl := IsLoopback_of_To4_nil
      [b0, b1, b2, b3, b4, b5, b6, b7, b8, b9, b10, b11, b12, b13, b14, b15] rfl hto4
    simp +decide [isLocal, hl, hz, IPv6loopback]
  · simp only [Contains_of_To4_nil _ _ hto4, networkNumberAndMask_heNet]
    simp +decide [containsLoop, and_255_of_byte, h0, h1, h2, h3]
    omega

/-! ## Disjointness of the ranges -/

/-- The number of `true` in a list of Booleans is the sum of their values. -/
theorem count_true_eq_sum (l : List Bool) : l.count true = (l.map Bool.toNat).sum := by
  induction l with
  | nil => rfl
  | cons t l ih =>
    cases t
    · simp [ih]
    · simp [ih]; omega

/-- The value of a Boolean is 0, or it is 1 and what the Boolean decides holds. -/
theorem toNat_of_iff (t : Bool) (P : Prop) (h : t = true ↔ P) :
    ∃ n : Nat, t.toNat = n ∧ (n = 0 ∨ (n = 1 ∧ P)) := by
  cases t
  · exact ⟨0, rfl, Or.inl rfl⟩
  · exact ⟨1, rfl, Or.inr ⟨rfl, h.1 rfl⟩⟩

/-- At most one range test holds on a 4-byte address. -/
theorem ranges_disjoint_four (a b c d : Nat) (ha : a < 256) (hb : b < 256) (hc : c < 256) :
    [isRFC1918 ⟨[a, b, c, d]⟩, isRFC2544 ⟨[a, b, c, d]⟩, isRFC3849 ⟨[a, b, c, d]⟩,
      isRFC3927 ⟨[a, b, c, d]⟩, isRFC3964 ⟨[a, b, c, d]⟩, isRFC4193 ⟨[a, b, c, d]⟩,
      isRFC4380 ⟨[a, b, c, d]⟩, isRFC4843 ⟨[a, b, c, d]⟩, isRFC4862 ⟨[a, b, c, d]⟩,
      isRFC5737 ⟨[a, b, c, d]⟩, isRFC6052 ⟨[a, b, c, d]⟩, isRFC6145 ⟨[a, b, c, d]⟩,
      isRFC6598 ⟨[a, b, c, d]⟩, isOnionCatTor ⟨[a, b, c, d]⟩, isLocal ⟨[a, b, c, d]⟩,
      heNet.Contains [a, b, c, d]].count true ≤ 1 := by
  obtain ⟨t1918, t2544, t3927, t5737, t6598, tlocal, f3849, f3964, f4193, f4380, f4843,
    f4862, f6052, f6145, fonion, fhe⟩ := tests_four a b c d ha hb hc
  obtain ⟨n1, e1, c1⟩ := toNat_of_iff _ _ t1918
  obtain ⟨n2, e2, c2⟩ := toNat_of_iff _ _ t2544
  obtain ⟨n3, e3, c3⟩ := toNat_of_iff _ _ t3927
  obtain ⟨n4, e4, c4⟩ := toNat_of_iff _ _ t5737
  obtain ⟨n5, e5, c5⟩ := toNat_of_iff _ _ t6598
  obtain ⟨n6, e6, c6⟩ := toNat_of_iff _ _ tlocal
  rw [count_true_eq_sum]
  simp only [List.map_cons, List.map_nil, List.sum_cons, List.sum_nil, f3849, f3964, f4193,
    f4380, f4843, f4862, f6052, f6145, fonion, fhe, Bool.toNat_false, e1, e2, e3, e4, e5, e6]
  clear t1918 t2544 t3927 t5737 t6598 tlocal f3849 f3964 f4193 f4380 f4843 f4862 f6052 f6145
    fonion fhe e1 e2 e3 e4 e5 e6
  omega

/-- The value of a Boolean that decides a proposition. -/
theorem toNat_iff (t : Bool) (P : Prop) (h : t = true ↔ P) :
    ∃ n : Nat, t.toNat = n ∧ ((n = 0 ∧ ¬ P) ∨ (n = 1 ∧ P)) := by
  cases t
  · exact ⟨0, rfl, Or.inl ⟨rfl, fun hp => Bool.noConfusion (h.2 hp)⟩⟩
  · exact ⟨1, rfl, Or.inr ⟨rfl, h.1 rfl⟩⟩

/-- On a 16-byte address that is not IPv4-mapped at most one range test holds,
unless the address is onion-encoded: then `isOnionCatTor` and `isRFC4193` hold
and no other test does. -/
theorem ranges_disjoint_sixteen
    (b0 b1 b2 b3 b4 b5 b6 b7 b8 b9 b10 b11 b12 b13 b14 b15 : Nat)
    (hb : ∀ b ∈ [b0, b1, b2, b3, b4, b5, b6, b7, b8, b9, b10, b11, b12, b13, b14, b15], b < 256)
    (hto4 : IP.To4 [b0, b1, b2, b3, b4, b5, b6, b7, b8, b9, b10, b11, b12, b13, b14, b15] = []) :
    [isRFC1918 ⟨[b0, b1, b2, b3, b4, b5, b6, b7, b8, b9, b10, b11, b12, b13, b14, b15]⟩,
      isRFC2544 ⟨[b0, b1, b2, b3, b4, b5, b6, b7, b8, b9, b10, b11, b12, b13, b14, b15]⟩,
      isRFC3849 ⟨[b0, b1, b2, b3, b4, b5, b6, b7, b8, b9, b10, b11, b12, b13, b14, b15]⟩,
      isRFC3927 ⟨[b0, b1, b2, b3, b4, b5, b6, b7, b8, b9, b10, b11, b12, b13, b14, b15]⟩,
      isRFC3964 ⟨[b0, b1, b2, b3, b4, b5, b6, b7, b8, b9, b10, b11, b12, b13, b14, b15]⟩,
      isRFC4193 ⟨[b0, b1, b2, b3, b4, b5, b6, b7, b8, b9, b10, b11, b12, b13, b14, b15]⟩,
      isRFC4380 ⟨[b0, b1, b2, b3, b4, b5, b6, b7, b8, b9, b10, b11, b12, b13, b14, b15]⟩,
      isRFC4843 ⟨[b0, b1, b2, b3, b4, b5, b6, b7, b8, b9, b10, b11, b12, b13, b14, b15]⟩,
      isRFC4862 ⟨[b0, b1, b2, b3, b4, b5, b6, b7, b8, b9, b10, b11, b12, b13, b14, b15]⟩,
      isRFC5737 ⟨[b0, b1, b2, b3, b4, b5, b6, b7, b8, b9, b10, b11, b12, b13, b14, b15]⟩,
      isRFC6052 ⟨[b0, b1, b2, b3, b4, b5, b6, b7, b8, b9, b10, b11, b12, b13, b14, b15]⟩,
      isRFC6145 ⟨[b0, b1, b2, b3, b4, b5, b6, b7, b8, b9, b10, b11, b12, b13, b14, b15]⟩,
      isRFC6598 ⟨[b0, b1, b2, b3, b4, b5, b6, b7, b8, b9, b10, b11, b12, b13, b14, b15]⟩,
      isOnionCatTor ⟨[b0, b1, b2, b3, b4, b5, b6, b7, b8, b9, b10, b11, b12, b13, b14, b15]⟩,
      isLocal ⟨[b0, b1, b2, b3, b4, b5, b6, b7, b8, b9, b10, b11, b12, b13, b14, b15]⟩,
      heNet.Contains [b0, b1, b2, b3, b4, b5, b6, b7, b8, b9, b10, b11, b12, b13, b14, b15]].count
        true ≤ 1 ∨
    (isOnionCatTor ⟨[b0, b1, b2, b3, b4, b5, b6, b7, b8, b9, b10, b11, b12, b13, b14, b15]⟩
        = true ∧
      isRFC4193 ⟨[b0, b1, b2, b3, b4, b5, b6, b7, b8, b9, b10, b11, b12, b13, b14, b15]⟩
        = true ∧
      [isRFC1918 ⟨[b0, b1, b2, b3, b4, b5, b6, b7, b8, b9, b10, b11, b12, b13, b14, b15]⟩,
        isRFC2544 ⟨[b0, b1, b2, b3, b4, b5, b6, b7, b8, b9, b10, b11, b12, b13, b14, b15]⟩,
        isRFC3849 ⟨[b0, b1, b2, b3, b4, b5, b6, b7, b8, b9, b10, b11, b12, b13, b14, b15]⟩,
        isRFC3927 ⟨[b0, b1, b2, b3, b4, b5, b6, b7, b8, b9, b10, b11, b12, b13, b14, b15]⟩,
        isRFC3964 ⟨[b0, b1, b2, b3, b4, b5, b6, b7, b8, b9, b10, b11, b12, b13, b14, b15]⟩,
        isRFC4193 ⟨[b0, b1, b2, b3, b4, b5, b6, b7, b8, b9, b10, b11, b12, b13, b14, b15]⟩,
        isRFC4380 ⟨[b0, b1, b2, b3, b4, b5, b6, b7, b8, b9, b10, b11, b12, b13, b14, b15]⟩,
        isRFC4843 ⟨[b0, b1, b2, b3, b4, b5, b6, b7, b8, b9, b10, b11, b12, b13, b14, b15]⟩,
        isRFC4862 ⟨[b0, b1, b2, b3, b4, b5, b6, b7, b8, b9, b10, b11, b12, b13, b14, b15]⟩,
        isRFC5737 ⟨[b0, b1, b2, b3, b4, b5, b6, b7, b8, b9, b10, b11, b12, b13, b14, b15]⟩,
        isRFC6052 ⟨[b0, b1, b2, b3, b4, b5, b6, b7, b8, b9, b10, b11, b12, b13, b14, b15]⟩,
        isRFC6145 ⟨[b0, b1, b2, b3, b4, b5, b6, b7, b8, b9, b10, b11, b12, b13, b14, b15]⟩,
        isRFC6598 ⟨[b0, b1, b2, b3, b4, b5, b6, b7, b8, b9, b10, b11, b12, b13, b14, b15]⟩,
        isOnionCatTor ⟨[b0, b1, b2, b3, b4, b5, b6, b7, b8, b9, b10, b11, b12, b13, b14, b15]⟩,
        isLocal ⟨[b0, b1, b2, b3, b4, b5, b6, b7, b8, b9, b10, b11, b12, b13, b14, b15]⟩,
        heNet.Contains
          [b0, b1, b2, b3, b4, b5, b6, b7, b8, b9, b10, b11, b12, b13, b14, b15]].count
          true = 2) := by
  obtain ⟨t3849, t3964, t4193, t4380, t4843, t4862, t6052, t6145, tonion, tlocal, the,
    f1918, f2544, f3927, f5737, f6598⟩ :=
    tests_sixteen b0 b1 b2 b3 b4 b5 b6 b7 b8 b9 b10 b11 b12 b13 b14 b15 hb hto4
  obtain ⟨n1, e1, c1⟩ := toNat_of_iff _ _ t3849
  obtain ⟨n2, e2, c2⟩ := toNat_of_iff _ _ t3964
  obtain ⟨n3, e3, c3⟩ := toNat_iff _ _ t4193
  obtain ⟨n4, e4, c4⟩ := toNat_of_iff _ _ t4380
  obtain ⟨n5, e5, c5⟩ := toNat_of_iff _ _ t4843
  obtain ⟨n6, e6, c6⟩ := toNat_of_iff _ _ t4862
  obtain ⟨n7, e7, c7⟩ := toNat_of_iff _ _ t6052
  obtain ⟨n8, e8, c8⟩ := toNat_of_iff _ _ t6145
  obtain ⟨n9, e9, c9⟩ := toNat_iff _ _ tonion
  obtain ⟨n10, e10, c10⟩ := toNat_of_iff _ _ tlocal
  obtain ⟨n11, e11, c11⟩ := toNat_of_iff _ _ the
  rw [count_true_eq_sum]
  simp only [List.map_cons, List.map_nil, List.sum_cons, List.sum_nil, f1918, f2544, f3927,
    f5737, f6598, Bool.toNat_false, e1, e2, e3, e4, e5, e6, e7, e8, e9, e10, e11]
  by_cases hon : b0 = 0xfd ∧ b1 = 0x87 ∧ b2 = 0xd8 ∧ b3 = 0x7e ∧ b4 = 0xeb ∧ b5 = 0x43
  · right
    refine ⟨tonion.2 hon, t4193.2 (Or.inr hon.1), ?_⟩
    clear t3849 t3964 t4193 t4380 t4843 t4862 t6052 t6145 tonion tlocal the f1918 f2544 f3927
      f5737 f6598 e1 e2 e3 e4 e5 e6 e7 e8 e9 e10 e11 hb hto4
    omega
  · left
    clear t3849 t3964 t4193 t4380 t4843 t4862 t6052 t6145 tonion tlocal the f1918 f2544 f3927
      f5737 f6598 e1 e2 e3 e4 e5 e6 e7 e8 e9 e10 e11 hb hto4
    have h9 : n9 = 0 := by
      rcases c9 with ⟨h, -⟩ | ⟨-, h⟩
      · exact h
      · exact absurd h hon
    clear c9 hon
    rcases c3 with ⟨h3, -⟩ | ⟨h3, p3⟩
    · omega
    · omega

/-- C19: on a 4-byte or 16-byte address at most one of the sixteen range tests
holds, with the one exception that `isOnionCatTor` and `isRFC4193` hold together
(and then no third test holds). -/
theorem reserved_ranges_disjoint (na : NetAddress)
    (hlen : na.IP.length = 4 ∨ na.IP.length = 16) (hbytes : ∀ b ∈ na.IP, b < 256) :
    [isRFC1918 na, isRFC2544 na, isRFC3849 na, isRFC3927 na, isRFC3964 na, isRFC4193 na,
      isRFC4380 na, isRFC4843 na, isRFC4862 na, isRFC5737 na, isRFC6052 na, isRFC6145 na,
      isRFC6598 na, isOnionCatTor na, isLocal na, heNet.Contains na.IP].count true ≤ 1 ∨
    (isOnionCatTor na = true ∧ isRFC4193 na = true ∧
      [isRFC1918 na, isRFC2544 na, isRFC3849 na, isRFC3927 na, isRFC3964 na, isRFC4193 na,
        isRFC4380 na, isRFC4843 na, isRFC4862 na, isRFC5737 na, isRFC6052 na, isRFC6145 na,
        isRFC6598 na, isOnionCatTor na, isLocal na, heNet.Contains na.IP].count true = 2) := by
  obtain ⟨ip⟩ := na
  simp only at hlen hbytes
  rcases hlen with h4 | h16
  · obtain ⟨a, b, c, d, rfl⟩ := list_length_four ip h4
    simp only [List.mem_cons, List.mem_singleton, forall_eq_or_imp, forall_eq,
      List.not_mem_nil] at hbytes
    exact Or.inl (ranges_disjoint_four a b c d hbytes.1 hbytes.2.1 hbytes.2.2.1)
  · rcases To4_sixteen ip h16 with hto4 | ⟨a, b, c, d, rfl⟩
    · obtain ⟨b0, b1, b2, b3, b4, b5, b6, b7, b8, b9, b10, b11, b12, b13, b14, b15, rfl⟩ :=
        list_length_sixteen ip h16
      exact ranges_disjoint_sixteen b0 b1 b2 b3 b4 b5 b6 b7 b8 b9 b10 b11 b12 b13 b14 b15
        hbytes hto4
    · have ha : a < 256 := hbytes a (by simp [IPv4])
      have hb : b < 256 := hbytes b (by simp [IPv4])
      have hc : c < 256 := hbytes c (by simp [IPv4])
      left
      have h := ranges_disjoint_four a b c d ha hb hc
      simp only [isRFC1918, isRFC2544, isRFC3849, isRFC3927, isRFC3964, isRFC4193, isRFC4380,
        isRFC4843, isRFC4862, isRFC5737, isRFC6052, isRFC6145, isRFC6598, isOnionCatTor,
        isLocal, IsLoopback_IPv4, Contains_IPv4] at h ⊢
      exact h

/-- C19, at `192.168.1.5`, where `isRFC1918` holds. -/
theorem reserved_ranges_disjoint_witness :
    ([isRFC1918 ⟨[192, 168, 1, 5]⟩, isRFC2544 ⟨[192, 168, 1, 5]⟩, isRFC3849 ⟨[192, 168, 1, 5]⟩,
      isRFC3927 ⟨[192, 168, 1, 5]⟩, isRFC3964 ⟨[192, 168, 1, 5]⟩, isRFC4193 ⟨[192, 168, 1, 5]⟩,
      isRFC4380 ⟨[192, 168, 1, 5]⟩, isRFC4843 ⟨[192, 168, 1, 5]⟩, isRFC4862 ⟨[192, 168, 1, 5]⟩,
      isRFC5737 ⟨[192, 168, 1, 5]⟩, isRFC6052 ⟨[192, 168, 1, 5]⟩, isRFC6145 ⟨[192, 168, 1, 5]⟩,
      isRFC6598 ⟨[192, 168, 1, 5]⟩, isOnionCatTor ⟨[192, 168, 1, 5]⟩, isLocal ⟨[192, 168, 1, 5]⟩,
      heNet.Contains [192, 168, 1, 5]].count true ≤ 1 ∨
    (isOnionCatTor ⟨[192, 168, 1, 5]⟩ = true ∧ isRFC4193 ⟨[192, 168, 1, 5]⟩ = true ∧
      [isRFC1918 ⟨[192, 168, 1, 5]⟩, isRFC2544 ⟨[192, 168, 1, 5]⟩, isRFC3849 ⟨[192, 168, 1, 5]⟩,
        isRFC3927 ⟨[192, 168, 1, 5]⟩, isRFC3964 ⟨[192, 168, 1, 5]⟩,
        isRFC4193 ⟨[192, 168, 1, 5]⟩, isRFC4380 ⟨[192, 168, 1, 5]⟩,
        isRFC4843 ⟨[192, 168, 1, 5]⟩, isRFC4862 ⟨[192, 168, 1, 5]⟩,
        isRFC5737 ⟨[192, 168, 1, 5]⟩, isRFC6052 ⟨[192, 168, 1, 5]⟩,
        isRFC6145 ⟨[192, 168, 1, 5]⟩, isRFC6598 ⟨[192, 168, 1, 5]⟩,
        isOnionCatTor ⟨[192, 168, 1, 5]⟩, isLocal ⟨[192, 168, 1, 5]⟩,
        heNet.Contains [192, 168, 1, 5]].count true = 2)) ∧
    isRFC1918 ⟨[192, 168, 1, 5]⟩ = true :=
  ⟨reserved_ranges_disjoint ⟨[192, 168, 1, 5]⟩ (Or.inl rfl) (by decide), by decide⟩

/-! ## Unroutable addresses and totality -/

/-- A local address lies in none of the ranges that `IsRoutable` excludes. -/
theorem isLocal_false_of_reserved (na : NetAddress)
    (hlen : na.IP.length = 4 ∨ na.IP.length = 16) (hbytes : ∀ b ∈ na.IP, b < 256)
    (hrange : isRFC1918 na = true ∨ isRFC2544 na = true ∨ isRFC3927 na = true ∨
      isRFC5737 na = true ∨ isRFC6598 na = true ∨ isRFC3849 na = true ∨
      isRFC4843 na = true ∨ isRFC4862 na = true ∨
      (isRFC4193 na = true ∧ isOnionCatTor na = false)) :
    isLocal na = false := by
  obtain ⟨ip⟩ := na
  simp only at hlen hbytes
  have key4 : ∀ a b c d : Nat, a < 256 → b < 256 → c < 256 →
      (isRFC1918 ⟨[a, b, c, d]⟩ = true ∨ isRFC2544 ⟨[a, b, c, d]⟩ = true ∨
        isRFC3927 ⟨[a, b, c, d]⟩ = true ∨ isRFC5737 ⟨[a, b, c, d]⟩ = true ∨
        isRFC6598 ⟨[a, b, c, d]⟩ = true ∨ isRFC3849 ⟨[a, b, c, d]⟩ = true ∨
        isRFC4843 ⟨[a, b, c, d]⟩ = true ∨ isRFC4862 ⟨[a, b, c, d]⟩ = true ∨
        (isRFC4193 ⟨[a, b, c, d]⟩ = true ∧ isOnionCatTor ⟨[a, b, c, d]⟩ = false)) →
      isLocal ⟨[a, b, c, d]⟩ = false := by
    intro a b c d ha hb hc hr
    obtain ⟨t1918, t2544, t3927, t5737, t6598, tlocal, f3849, f3964, f4193, f4380, f4843,
      f4862, f6052, f6145, fonion, fhe⟩ := tests_four a b c d ha hb hc
    cases hl : isLocal ⟨[a, b, c, d]⟩
    · rfl
    · exfalso
      have pl := tlocal.1 hl
      rw [f3849, f4843, f4862, f4193] at hr
      rcases hr with h | h | h | h | h | h | h | h | h
      · have := t1918.1 h; omega
      · have := t2544.1 h; omega
      · have := t3927.1 h; omega
      · have := t5737.1 h; omega
      · have := t6598.1 h; omega
      · exact Bool.noConfusion h
      · exact Bool.noConfusion h
      · exact Bool.noConfusion h
      · exact Bool.noConfusion h.1
  rcases hlen with h4 | h16
  · obtain ⟨a, b, c, d, rfl⟩ := list_length_four ip h4
    simp only [List.mem_cons, List.mem_singleton, forall_eq_or_imp, forall_eq,
      List.not_mem_nil] at hbytes
    exact key4 a b c d hbytes.1 hbytes.2.1 hbytes.2.2.1 hrange
  · rcases To4_sixteen ip h16 with hto4 | ⟨a, b, c, d, rfl⟩
    · obtain ⟨b0, b1, b2, b3, b4, b5, b6, b7, b8, b9, b10, b11, b12, b13, b14, b15, rfl⟩ :=
        list_length_sixteen ip h16
      obtain ⟨t3849, t3964, t4193, t4380, t4843, t4862, t6052, t6145, tonion, tlocal, the,
        f1918, f2544, f3927, f5737, f6598⟩ :=
        tests_sixteen b0 b1 b2 b3 b4 b5 b6 b7 b8 b9 b10 b11 b12 b13 b14 b15 hbytes hto4
      cases hl : isLocal
        ⟨[b0, b1, b2, b3, b4, b5, b6, b7, b8, b9, b10, b11, b12, b13, b14, b15]⟩
      · rfl
      · exfalso
        have pl := tlocal.1 hl
        rw [f1918, f2544, f3927, f5737, f6598] at hrange
        rcases hrange with h | h | h | h | h | h | h | h | h
        · exact Bool.noConfusion h
        · exact Bool.noConfusion h
        · exact Bool.noConfusion h
        · exact Bool.noConfusion h
        · exact Bool.noConfusion h
        · have := t3849.1 h; omega
        · have := t4843.1 h; omega
        · have := t4862.1 h; omega
        · have := t4193.1 h.1; omega
    · have ha : a < 256 := hbytes a (by simp [IPv4])
      have hb : b < 256 := hbytes b (by simp [IPv4])
      have hc : c < 256 := hbytes c (by simp [IPv4])
      have h := key4 a b c d ha hb hc
      simp only [isRFC1918, isRFC2544, isRFC3849, isRFC3927, isRFC4193, isRFC4843, isRFC4862,
        isRFC5737, isRFC6598, isOnionCatTor, isLocal, IsLoopback_IPv4, Contains_IPv4]
        at h hrange ⊢
      exact h hrange

/-- C11: a 4-byte or 16-byte address in RFC1918, RFC2544, RFC3927, RFC5737,
RFC6598, RFC3849, RFC4843, RFC4862, or in RFC4193 outside the onion block, is not
local and has the group key `unroutable`. -/
theorem GroupKey_unroutable (na : NetAddress)
    (hlen : na.IP.length = 4 ∨ na.IP.length = 16) (hbytes : ∀ b ∈ na.IP, b < 256)
    (hrange : isRFC1918 na = true ∨ isRFC2544 na = true ∨ isRFC3927 na = true ∨
      isRFC5737 na = true ∨ isRFC6598 na = true ∨ isRFC3849 na = true ∨
      isRFC4843 na = true ∨ isRFC4862 na = true ∨
      (isRFC4193 na = true ∧ isOnionCatTor na = false)) :
    isLocal na = false ∧ GroupKey na = some "unroutable" := by
  have hl : isLocal na = false := isLocal_false_of_reserved na hlen hbytes hrange
  have hr : IsRoutable na = false := by
    unfold IsRoutable
    rcases hrange with h | h | h | h | h | h | h | h | h <;> simp [h]
  refine ⟨hl, ?_⟩
  simp [GroupKey, hl, hr]

/-- C11, at `192.168.1.5`. -/
theorem GroupKey_unroutable_witness :
    isLocal ⟨[192, 168, 1, 5]⟩ = false ∧ GroupKey ⟨[192, 168, 1, 5]⟩ = some "unroutable" :=
  GroupKey_unroutable ⟨[192, 168, 1, 5]⟩ (Or.inl rfl) (by decide) (Or.inl (by decide))

/-- A network contains an address without 4-byte form only if the address has
the length of the network number. -/
theorem length_of_Contains (n : IPNet) (ip : IP) (hto4 : ip.To4 = [])
    (h : n.Contains ip = true) : ip.length = (networkNumberAndMask n).1.length := by
  rw [Contains_of_To4_nil n ip hto4] at h
  by_contra hne
  simp [hne] at h

/-- C15: `GroupKey` returns a string on every address, without failure; the
branches that take the slices `na.IP[12:16]`, `na.IP[2:6]` and the index
`na.IP[6]` are reached only for an address of 16 bytes, where they are in range;
a 4-byte address is an IPv4 address and is handled before them. -/
theorem GroupKey_total (na : NetAddress) :
    (∃ s : String, GroupKey na = some s) ∧
    (isIPv4 na = false →
      (isRFC6145 na = true ∨ isRFC6052 na = true ∨ isRFC3964 na = true ∨
        isRFC4380 na = true ∨ isOnionCatTor na = true) →
      na.IP.length = 16 ∧ (sliceChecked na.IP 12 16).isSome = true ∧
        (sliceChecked na.IP 2 6).isSome = true ∧ (na.IP[6]?).isSome = true) ∧
    (na.IP.length = 4 → isIPv4 na = true) := by
  have hlen : isIPv4 na = false →
      (isRFC6145 na = true ∨ isRFC6052 na = true ∨ isRFC3964 na = true ∨
        isRFC4380 na = true ∨ isOnionCatTor na = true) → na.IP.length = 16 := by
    intro h4 ht
    have hto4 : na.IP.To4 = [] := by simpa [isIPv4] using h4
    rcases ht with h | h | h | h | h
    · exact (length_of_Contains _ _ hto4 h).trans (by decide)
    · exact (length_of_Contains _ _ hto4 h).trans (by decide)
    · exact (length_of_Contains _ _ hto4 h).trans (by decide)
    · exact (length_of_Contains _ _ hto4 h).trans (by decide)
    · exact (length_of_Contains _ _ hto4 h).trans (by decide)
  have hslices : na.IP.length = 16 →
      (∃ ip, sliceChecked na.IP 12 16 = some ip) ∧ (∃ ip, sliceChecked na.IP 2 6 = some ip) ∧
      (∃ b, na.IP[6]? = some b) := by
    intro h16
    refine ⟨⟨_, by simp [sliceChecked, h16]; rfl⟩, ⟨_, by simp [sliceChecked, h16]; rfl⟩, ?_⟩
    exact ⟨na.IP.getD 6 0, by simp [List.getD, List.getElem?_eq_getElem, h16]⟩
  refine ⟨?_, ?_, ?_⟩
  · unfold GroupKey
    by_cases h1 : isLocal na = true
    · exact ⟨_, by rw [if_pos h1]⟩
    rw [if_neg h1]
    by_cases h2 : (!IsRoutable na) = true
    · exact ⟨_, by rw [if_pos h2]⟩
    rw [if_neg h2]
    by_cases h3 : isIPv4 na = true
    · exact ⟨_, by rw [if_pos h3]⟩
    rw [if_neg h3]
    have h3f : isIPv4 na = false := by simpa using h3
    by_cases h4 : (isRFC6145 na || isRFC6052 na) = true
    · rw [if_pos h4]
      have ht : isRFC6145 na = true ∨ isRFC6052 na = true := by simpa using h4
      obtain ⟨⟨ip, hip⟩, -, -⟩ :=
        hslices (hlen h3f (ht.elim Or.inl (fun h => Or.inr (Or.inl h))))
      exact ⟨_, by rw [hip]; rfl⟩
    rw [if_neg h4]
    by_cases h5 : isRFC3964 na = true
    · rw [if_pos h5]
      obtain ⟨-, ⟨ip, hip⟩, -⟩ := hslices (hlen h3f (Or.inr (Or.inr (Or.inl h5))))
      exact ⟨_, by rw [hip]; rfl⟩
    rw [if_neg h5]
    by_cases h6 : isRFC4380 na = true
    · rw [if_pos h6]
      obtain ⟨⟨ip, hip⟩, -, -⟩ := hslices (hlen h3f (Or.inr (Or.inr (Or.inr (Or.inl h6)))))
      exact ⟨_, by rw [hip]; rfl⟩
    rw [if_neg h6]
    by_cases h7 : isOnionCatTor na = true
    · rw [if_pos h7]
      obtain ⟨-, -, ⟨b, hb⟩⟩ := hslices (hlen h3f (Or.inr (Or.inr (Or.inr (Or.inr h7)))))
      exact ⟨_, by rw [hb]; rfl⟩
    rw [if_neg h7]
    exact ⟨_, rfl⟩
  · intro h4 ht
    have h16 := hlen h4 ht
    obtain ⟨⟨ip, hip⟩, ⟨ip2, hip2⟩, ⟨b, hb⟩⟩ := hslices h16
    exact ⟨h16, by rw [hip]; rfl, by rw [hip2]; rfl, by rw [hb]; rfl⟩
  · intro h4
    obtain ⟨ip⟩ := na
    obtain ⟨a, b, c, d, rfl⟩ := list_length_four ip h4
    exact (isIPv4_four a b c d).1

/-- C15, at the 6to4 address `2002:808:808::1` and at `8.8.8.8`. -/
theorem GroupKey_total_witness :
    (List.length [0x20, 0x02, 8, 8, 8, 8, 0, 0, 0, 0, 0, 0, 0, 0, 0, 1] = 16 ∧
      (sliceChecked [0x20, 0x02, 8, 8, 8, 8, 0, 0, 0, 0, 0, 0, 0, 0, 0, 1] 12 16).isSome = true ∧
      (sliceChecked [0x20, 0x02, 8, 8, 8, 8, 0, 0, 0, 0, 0, 0, 0, 0, 0, 1] 2 6).isSome = true ∧
      ([0x20, 0x02, 8, 8, 8, 8, 0, 0, 0, 0, 0, 0, 0, 0, 0, 1][6]?).isSome = true) ∧
    isIPv4 ⟨[8, 8, 8, 8]⟩ = true :=
  ⟨(GroupKey_total ⟨[0x20, 0x02, 8, 8, 8, 8, 0, 0, 0, 0, 0, 0, 0, 0, 0, 1]⟩).2.1 (by decide)
      (Or.inr (Or.inr (Or.inl (by decide)))),
    (GroupKey_total ⟨[8, 8, 8, 8]⟩).2.2 rfl⟩

/-! ## Addresses of malformed length -/

/-- C24: on a non-empty byte string whose length is neither 4 nor 16 every range
test and `isLocal` return false and `isValid` returns true, so that `IsRoutable`
returns true. -/
theorem malformed_length_routable (ip : IP) (hne : ip ≠ []) (h4 : ip.length ≠ 4)
    (h16 : ip.length ≠ 16) :
    isRFC1918 ⟨ip⟩ = false ∧ isRFC2544 ⟨ip⟩ = false ∧ isRFC3849 ⟨ip⟩ = false ∧
    isRFC3927 ⟨ip⟩ = false ∧ isRFC3964 ⟨ip⟩ = false ∧ isRFC4193 ⟨ip⟩ = false ∧
    isRFC4380 ⟨ip⟩ = false ∧ isRFC4843 ⟨ip⟩ = false ∧ isRFC4862 ⟨ip⟩ = false ∧
    isRFC5737 ⟨ip⟩ = false ∧ isRFC6052 ⟨ip⟩ = false ∧ isRFC6145 ⟨ip⟩ = false ∧
    isRFC6598 ⟨ip⟩ = false ∧ isOnionCatTor ⟨ip⟩ = false ∧ heNet.Contains ip = false ∧
    isLocal ⟨ip⟩ = false ∧ isValid ⟨ip⟩ = true ∧ IsRoutable ⟨ip⟩ = true := by
  have hto4 : ip.To4 = [] := by simp [IP.To4, IPv4len, IPv6len, h4, h16]
  have hc4 : ∀ n : IPNet, (networkNumberAndMask n).1.length = 4 → n.Contains ip = false := by
    intro n hn
    rw [Contains_of_To4_nil n ip hto4, hn]
    simp [h4]
  have hc16 : ∀ n : IPNet, (networkNumberAndMask n).1.length = 16 →
      n.Contains ip = false := by
    intro n hn
    rw [Contains_of_To4_nil n ip hto4, hn]
    simp [h16]
  have h1918 : isRFC1918 ⟨ip⟩ = false := by
    simp only [isRFC1918, rfc1918Nets, List.any_cons, List.any_nil, Bool.or_false,
      Bool.or_eq_false_iff]
    exact ⟨hc4 _ (by decide), hc4 _ (by decide), hc4 _ (by decide)⟩
  have h5737 : isRFC5737 ⟨ip⟩ = false := by
    simp only [isRFC5737, rfc5737Net, List.any_cons, List.any_nil, Bool.or_false,
      Bool.or_eq_false_iff]
    exact ⟨hc4 _ (by decide), hc4 _ (by decide), hc4 _ (by decide)⟩
  have h2544 : isRFC2544 ⟨ip⟩ = false := hc4 _ (by decide)
  have h3927 : isRFC3927 ⟨ip⟩ = false := hc4 _ (by decide)
  have h6598 : isRFC6598 ⟨ip⟩ = false := hc4 _ (by decide)
  have h3849 : isRFC3849 ⟨ip⟩ = false := hc16 _ (by decide)
  have h3964 : isRFC3964 ⟨ip⟩ = false := hc16 _ (by decide)
  have h4193 : isRFC4193 ⟨ip⟩ = false := hc16 _ (by decide)
  have h4380 : isRFC4380 ⟨ip⟩ = false := hc16 _ (by decide)
  have h4843 : isRFC4843 ⟨ip⟩ = false := hc16 _ (by decide)
  have h4862 : isRFC4862 ⟨ip⟩ = false := hc16 _ (by decide)
  have h6052 : isRFC6052 ⟨ip⟩ = false := hc16 _ (by decide)
  have h6145 : isRFC6145 ⟨ip⟩ = false := hc16 _ (by decide)
  have honion : isOnionCatTor ⟨ip⟩ = false := hc16 _ (by decide)
  have hhe : heNet.Contains ip = false := hc16 _ (by decide)
  have hequal : ∀ x : IP, x.length = 16 → ip.Equal x = false := by
    intro x hx
    simp [IP.Equal, hx, h16, h4, IPv4len, IPv6len]
  have hlocal : isLocal ⟨ip⟩ = false := by
    simp [isLocal, IP.IsLoopback, hto4, hequal IPv6loopback rfl, hc4 zero4Net (by decide)]
  have hvalid : isValid ⟨ip⟩ = true := by
    have hn : (ip != []) = true := by
      cases ip with
      | nil => exact absurd rfl hne
      | cons x l => rfl
    simp [isValid, IP.IsUnspecified, hequal IPv4zero rfl, hequal IPv6unspecified rfl,
      hequal IPv4bcast rfl, hn]
  refine ⟨h1918, h2544, h3849, h3927, h3964, h4193, h4380, h4843, h4862, h5737, h6052,
    h6145, h6598, honion, hhe, hlocal, hvalid, ?_⟩
  simp [IsRoutable, hvalid, h1918, h2544, h3927, h4862, h3849, h4843, h5737, h6598, hlocal,
    h4193]

/-- C24, at the 3-byte string `01 02 03`. -/
theorem malformed_length_routable_witness :
    isLocal ⟨[1, 2, 3]⟩ = false ∧ isValid ⟨[1, 2, 3]⟩ = true ∧ IsRoutable ⟨[1, 2, 3]⟩ = true :=
  (malformed_length_routable [1, 2, 3] (by decide) (by decide) (by decide)).2.2.2.2.2.2.2.2.2.2.2.2.2.2.2

/-! ## Tunnel and translation ranges -/

/-- C22: every 16-byte address of RFC3964 (`2002::/16`), RFC4380 (`2001:0::/32`),
RFC6052 (`64:ff9b::/96`) and RFC6145 (`::ffff:0:0:0/96`) is routable, whatever
address is embedded in it; the 6to4 address `2002:a00:1::`, which embeds
`10.0.0.1`, is routable with group key `10.0.0.0`, while the group key of
`10.0.0.1` is `unroutable`. -/
theorem tunnel_ranges_routable :
    (∀ b2 b3 b4 b5 b6 b7 b8 b9 b10 b11 b12 b13 b14 b15 : Nat,
      IsRoutable ⟨[0x20, 0x02, b2, b3, b4, b5, b6, b7, b8, b9, b10, b11, b12, b13, b14, b15]⟩
        = true) ∧
    (∀ b4 b5 b6 b7 b8 b9 b10 b11 b12 b13 b14 b15 : Nat,
      IsRoutable ⟨[0x20, 0x01, 0, 0, b4, b5, b6, b7, b8, b9, b10, b11, b12, b13, b14, b15]⟩
        = true) ∧
    (∀ b12 b13 b14 b15 : Nat,
      IsRoutable ⟨[0x00, 0x64, 0xff, 0x9b, 0, 0, 0, 0, 0, 0, 0, 0, b12, b13, b14, b15]⟩
        = true) ∧
    (∀ b12 b13 b14 b15 : Nat,
      IsRoutable ⟨[0, 0, 0, 0, 0, 0, 0, 0, 0xff, 0xff, 0, 0, b12, b13, b14, b15]⟩ = true) ∧
    isRFC3964 ⟨[0x20, 0x02, 0x0a, 0x00, 0x00, 0x01, 0, 0, 0, 0, 0, 0, 0, 0, 0, 0]⟩ = true ∧
    IsRoutable ⟨[0x20, 0x02, 0x0a, 0x00, 0x00, 0x01, 0, 0, 0, 0, 0, 0, 0, 0, 0, 0]⟩ = true ∧
    GroupKey ⟨[0x20, 0x02, 0x0a, 0x00, 0x00, 0x01, 0, 0, 0, 0, 0, 0, 0, 0, 0, 0]⟩ =
      some "10.0.0.0" ∧
    GroupKey ⟨[10, 0, 0, 1]⟩ = some "unroutable" := by
  refine ⟨?_, ?_, ?_, ?_, by decide, by decide, by decide, by decide⟩
  all_goals
    intros
    simp +decide [IsRoutable, isValid, isLocal, isRFC1918, isRFC2544, isRFC3927, isRFC4862,
      isRFC3849, isRFC4843, isRFC5737, isRFC6598, isOnionCatTor, isRFC4193, rfc4193Net,
      rfc1918Nets, rfc2544Net, rfc3927Net, rfc4862Net, rfc3849Net, rfc4843Net, rfc5737Net,
      rfc6598Net, zero4Net, onionCatNet, ipNet, IPNet.Contains, networkNumberAndMask,
      IP.To4, IP.Equal, IP.IsUnspecified, IP.IsLoopback, IPv4, IPv4zero, IPv4bcast,
      IPv6unspecified, IPv6loopback, v4InV6Prefix, CIDRMask, cidrMaskLoop, IPv4len,
      IPv6len, isZeros, subslice, containsLoop]

/-! ## The characters of a group key -/

/-- No hexadecimal digit is the letter `l`. -/
theorem hexDigit_ne_l (k : Nat) : hexDigit.getD k '0' ≠ 'l' := by
  by_cases hk : k < 16
  · revert k
    decide
  · have hlen : hexDigit.length ≤ k := by
      have : hexDigit.length = 16 := by decide
      omega
    rw [List.getD_eq_default _ _ hlen]
    decide

/-- A fold keeps what every step keeps. -/
theorem foldl_invariant {α β : Type} (P : β → Prop) (f : β → α → β)
    (hf : ∀ b a, P b → P (f b a)) : ∀ (l : List α) (b : β), P b → P (l.foldl f b) := by
  intro l
  induction l with
  | nil => intro b hb; exact hb
  | cons a l ih => intro b hb; exact ih (f b a) (hf b a hb)

/-- The function `appendHex` adds no letter `l`. -/
theorem appendHex_noL (dst : String) (i : Nat) (h : 'l' ∉ dst.data) :
    'l' ∉ (appendHex dst i).data := by
  unfold appendHex
  split
  · simp only [String.data_push, List.mem_append, List.mem_singleton, not_or]
    exact ⟨h, by decide⟩
  · apply foldl_invariant (fun s : String => 'l' ∉ s.data) _ _ _ _ h
    intro b a hb
    simp only
    split
    · simp only [String.data_push, List.mem_append, List.mem_singleton, not_or]
      exact ⟨hb, fun e => hexDigit_ne_l _ e.symm⟩
    · exact hb

/-- The printing loop of `IP.String` adds no letter `l`. -/
theorem printFields_noL (p : IP) (e0 e1 : Int) :
    ∀ (fuel i : Nat) (b : String), 'l' ∉ b.data → 'l' ∉ (printFields p e0 e1 fuel i b).data := by
  intro fuel
  induction fuel with
  | zero => intro i b hb; simpa [printFields] using hb
  | succ n ih =>
    intro i b hb
    have hcc : 'l' ∉ (b ++ "::").data := by
      simp only [String.data_append, List.mem_append, not_or]
      exact ⟨hb, by decide⟩
    have hc : 'l' ∉ (b ++ ":").data := by
      simp only [String.data_append, List.mem_append, not_or]
      exact ⟨hb, by decide⟩
    rw [printFields]
    simp only
    split
    · split
      · split
        · exact hcc
        · exact ih _ _ (appendHex_noL _ _ hcc)
      · split
        · exact ih _ _ (appendHex_noL _ _ hc)
        · exact ih _ _ (appendHex_noL _ _ hb)
    · exact hb

/-- The colon-hexadecimal rendering holds no letter `l`. -/
theorem colonHex_noL (p : IP) : 'l' ∉ (colonHex p).data := by
  unfold colonHex
  simp only
  split <;> exact printFields_noL p _ _ 8 0 "" (by decide)

/-- The decimal rendering of a byte holds no letter `l`. -/
theorem ubtoa_noL : ∀ v : Nat, v < 256 → 'l' ∉ (ubtoa v).data := by
  decide

/-- The dotted-decimal rendering of bytes holds no letter `l`. -/
theorem dottedQuad_noL (p4 : IP) (hb : ∀ b ∈ p4, b < 256) : 'l' ∉ (dottedQuad p4).data := by
  have hget : ∀ i : Nat, p4.getD i 0 < 256 := by
    intro i
    rw [List.getD_eq_getElem?_getD]
    cases h : p4[i]? with
    | none => simp
    | some x => exact hb x (List.getElem?_mem h)
  have hdot : 'l' ∉ (".").data := by decide
  simp only [dottedQuad, String.data_append, List.mem_append, not_or]
  exact ⟨⟨⟨⟨⟨⟨ubtoa_noL _ (hget 0), hdot⟩, ubtoa_noL _ (hget 1)⟩, hdot⟩, ubtoa_noL _ (hget 2)⟩,
    hdot⟩, ubtoa_noL _ (hget 3)⟩

/-- The bytes of the 4-byte form of an address are bytes of the address. -/
theorem To4_subset (ip : IP) : ∀ b ∈ ip.To4, b ∈ ip := by
  intro b hb
  unfold IP.To4 at hb
  split at hb
  · exact hb
  · split at hb
    · exact List.mem_of_mem_take (List.mem_of_mem_drop hb)
    · simp at hb

/-- The method `IP.String` renders a 4-byte or 16-byte address without the letter `l`. -/
theorem String_noL (ip : IP) (hlen : ip.length = 4 ∨ ip.length = 16)
    (hb : ∀ b ∈ ip, b < 256) : 'l' ∉ (IP.String ip).data := by
  unfold IP.String
  have h0 : ¬ (ip.length == 0) = true := by
    rcases hlen with h | h <;> simp [h]
  rw [if_neg h0]
  split
  · exact dottedQuad_noL _ (fun b hm => hb b (To4_subset ip b hm))
  · rename_i hto4
    have h16 : ip.length = 16 := by
      rcases hlen with h | h
      · exfalso
        apply hto4
        simp [IP.To4, IPv4len, h]
      · exact h
    have hn : ¬ (ip.length != IPv6len) = true := by simp [IPv6len, h16]
    rw [if_neg hn]
    exact colonHex_noL ip

/-- Masking bytes gives bytes. -/
theorem zipWith_and_bytes : ∀ (l m : List Nat), (∀ b ∈ l, b < 256) →
    ∀ b ∈ List.zipWith (fun x y => x &&& y) l m, b < 256 := by
  intro l
  induction l with
  | nil => intro m _ b hb; simp at hb
  | cons x l ih =>
    intro m hl b hb
    cases m with
    | nil => simp at hb
    | cons y m =>
      simp only [List.zipWith_cons_cons, List.mem_cons] at hb
      rcases hb with rfl | hb
      · exact lt_of_le_of_lt Nat.and_le_left (hl x (List.mem_cons_self x l))
      · exact ih m (fun c hc => hl c (List.mem_cons_of_mem x hc)) b hb

/-- The method `IP.Mask` gives bytes when the address is made of bytes. -/
theorem Mask_bytes (ip : IP) (mask : IPMask) (hb : ∀ b ∈ ip, b < 256) :
    ∀ b ∈ ip.Mask mask, b < 256 := by
  have key : ∀ (ip1 : IP) (m1 : IPMask), (∀ b ∈ ip1, b < 256) →
      ∀ b ∈ (if ip1.length != m1.length then []
        else List.zipWith (fun x y => x &&& y) ip1 m1), b < 256 := by
    intro ip1 m1 h b hm
    split at hm
    · simp at hm
    · exact zipWith_and_bytes _ _ h b hm
  intro b hm
  unfold IP.Mask at hm
  refine key _ _ ?_ b hm
  intro c hc
  split at hc <;> split at hc <;>
    first
    | exact hb c (List.mem_of_mem_drop hc)
    | exact hb c hc

/-- Masking a 4-byte address to `/16` gives 4 bytes. -/
theorem Mask16_length_four (ip : IP) (h : ip.length = 4) :
    (ip.Mask (CIDRMask 16 32)).length = 4 := by
  obtain ⟨a, b, c, d, rfl⟩ := list_length_four ip h
  simp +decide [IP.Mask, CIDRMask, cidrMaskLoop, IPv4len, IPv6len, allFF, subslice]

/-- Masking a 16-byte address to `/32` or `/36` gives 16 bytes. -/
theorem Mask128_length (ip : IP) (h : ip.length = 16) :
    (ip.Mask (CIDRMask 32 128)).length = 16 ∧ (ip.Mask (CIDRMask 36 128)).length = 16 := by
  obtain ⟨b0, b1, b2, b3, b4, b5, b6, b7, b8, b9, b10, b11, b12, b13, b14, b15, rfl⟩ :=
    list_length_sixteen ip h
  constructor <;>
  simp +decide [IP.Mask, CIDRMask, cidrMaskLoop, IPv4len, IPv6len, allFF, subslice]

/-- The key `tor:N` of a nibble holds no letter `l`. -/
theorem tor_key_noL : ∀ v : Nat, v < 16 →
    'l' ∉ ("tor:" ++ String.mk (fmtInteger 20 v [])).data := by
  decide

/-- The group key of a routable 4-byte or 16-byte address holds no letter `l`. -/
theorem GroupKey_noL (na : NetAddress) (hlen : na.IP.length = 4 ∨ na.IP.length = 16)
    (hbytes : ∀ b ∈ na.IP, b < 256) (hr : IsRoutable na = true) :
    ∃ s : String, GroupKey na = some s ∧ 'l' ∉ s.data := by
  have hl : isLocal na = false := by
    cases h : isLocal na
    · rfl
    · simp [IsRoutable, h] at hr
  have h1 : ¬ isLocal na = true := by simp [hl]
  have h2 : ¬ (!IsRoutable na) = true := by simp [hr]
  unfold GroupKey
  rw [if_neg h1, if_neg h2]
  by_cases h3 : isIPv4 na = true
  · rw [if_pos h3]
    refine ⟨_, rfl, String_noL _ (Or.inl ?_) (Mask_bytes _ _ hbytes)⟩
    rcases hlen with h | h
    · exact Mask16_length_four _ h
    · rcases To4_sixteen na.IP h with hto4 | ⟨a, b, c, d, hip⟩
      · simp [isIPv4, hto4] at h3
      · rw [hip, Mask16_IPv4]
        exact Mask16_length_four _ rfl
  rw [if_neg h3]
  have h16 : na.IP.length = 16 := by
    rcases hlen with h | h
    · obtain ⟨a, b, c, d, hip⟩ := list_length_four na.IP h
      exact absurd (by simp [isIPv4, hip, To4_four]) h3
    · exact h
  have hsub : ∀ lo hi : Nat, ∀ b ∈ subslice na.IP lo hi, b < 256 := by
    intro lo hi b hb
    exact hbytes b (List.mem_of_mem_take (List.mem_of_mem_drop hb))
  have hs12 : sliceChecked na.IP 12 16 = some (subslice na.IP 12 16) := by
    simp [sliceChecked, h16]
  have hs2 : sliceChecked na.IP 2 6 = some (subslice na.IP 2 6) := by
    simp [sliceChecked, h16]
  have hl12 : (subslice na.IP 12 16).length = 4 := by simp [subslice, h16]
  have hl2 : (subslice na.IP 2 6).length = 4 := by simp [subslice, h16]
  by_cases h4 : (isRFC6145 na || isRFC6052 na) = true
  · rw [if_pos h4, hs12]
    exact ⟨_, rfl, String_noL _ (Or.inl (Mask16_length_four _ hl12))
      (Mask_bytes _ _ (hsub 12 16))⟩
  rw [if_neg h4]
  by_cases h5 : isRFC3964 na = true
  · rw [if_pos h5, hs2]
    exact ⟨_, rfl, String_noL _ (Or.inl (Mask16_length_four _ hl2))
      (Mask_bytes _ _ (hsub 2 6))⟩
  rw [if_neg h5]
  by_cases h6 : isRFC4380 na = true
  · rw [if_pos h6, hs12]
    refine ⟨_, rfl, String_noL _ (Or.inl (Mask16_length_four _ ?_)) (Mask_bytes _ _ ?_)⟩
    · simp [hl12]
    · intro b hb
      obtain ⟨x, hx, rfl⟩ := List.mem_map.1 hb
      exact xor_255_lt (hsub 12 16 x hx)
  rw [if_neg h6]
  by_cases h7 : isOnionCatTor na = true
  · rw [if_pos h7]
    have h6get : na.IP[6]? = some (na.IP.getD 6 0) := by
      simp [List.getD, List.getElem?_eq_getElem, h16]
    rw [h6get]
    exact ⟨_, rfl, tor_key_noL _ (and_15_lt _)⟩
  rw [if_neg h7]
  refine ⟨_, rfl, String_noL _ (Or.inr ?_) (Mask_bytes _ _ hbytes)⟩
  split
  · exact (Mask128_length _ h16).2
  · exact (Mask128_length _ h16).1

/-- C21: on a 4-byte or 16-byte address `IsRoutable` holds exactly when the group
key is neither `local` nor `unroutable`. -/
theorem IsRoutable_iff_GroupKey (na : NetAddress)
    (hlen : na.IP.length = 4 ∨ na.IP.length = 16) (hbytes : ∀ b ∈ na.IP, b < 256) :
    IsRoutable na = true ↔
      (GroupKey na ≠ some "local" ∧ GroupKey na ≠ some "unroutable") := by
  constructor
  · intro hr
    obtain ⟨s, hs, hnl⟩ := GroupKey_noL na hlen hbytes hr
    rw [hs]
    constructor
    · intro h
      rw [Option.some.inj h] at hnl
      exact hnl (by decide)
    · intro h
      rw [Option.some.inj h] at hnl
      exact hnl (by decide)
  · intro h
    cases hr : IsRoutable na
    · exfalso
      cases hl : isLocal na
      · exact h.2 (by simp [GroupKey, hl, hr])
      · exact h.1 (by simp [GroupKey, hl])
    · rfl

/-- C21, at `8.8.8.8` (routable) and at `192.168.1.5` (not routable). -/
theorem IsRoutable_iff_GroupKey_witness :
    (GroupKey ⟨[8, 8, 8, 8]⟩ ≠ some "local" ∧ GroupKey ⟨[8, 8, 8, 8]⟩ ≠ some "unroutable") ∧
    IsRoutable ⟨[8, 8, 8, 8]⟩ = true ∧
    ¬ (GroupKey ⟨[192, 168, 1, 5]⟩ ≠ some "local" ∧
      GroupKey ⟨[192, 168, 1, 5]⟩ ≠ some "unroutable") :=
  ⟨(IsRoutable_iff_GroupKey ⟨[8, 8, 8, 8]⟩ (Or.inl rfl) (by decide)).1 (by decide), by decide,
    fun h => Bool.noConfusion
      ((by decide : IsRoutable ⟨[192, 168, 1, 5]⟩ = false).symm.trans
        ((IsRoutable_iff_GroupKey ⟨[192, 168, 1, 5]⟩ (Or.inl rfl) (by decide)).2 h))⟩

/-! ## Equal group keys of IPv4 addresses -/

/-- The group key of an IPv4-mapped address is that of the 4-byte address. -/
theorem GroupKey_IPv4 (a b c d : Nat) :
    GroupKey ⟨IPv4 a b c d⟩ = GroupKey ⟨[a, b, c, d]⟩ := by
  simp only [GroupKey, isLocal_IPv4, IsRoutable_IPv4, (isIPv4_four a b c d).1,
    (isIPv4_four a b c d).2, Mask16_IPv4, if_true]

/-- The group key of a routable 4-byte address, in decimal. -/
theorem GroupKey_four_of_routable (a b c d : Nat) (ha : a < 256) (hb : b < 256)
    (hr : IsRoutable ⟨[a, b, c, d]⟩ = true) :
    GroupKey ⟨[a, b, c, d]⟩ = some (toString a ++ "." ++ toString b ++ ".0.0") := by
  have hl : isLocal ⟨[a, b, c, d]⟩ = false := by
    cases h : isLocal ⟨[a, b, c, d]⟩
    · rfl
    · simp [IsRoutable, h] at hr
  have hm : IP.Mask [a, b, c, d] (CIDRMask 16 32) = [a, b, 0, 0] := by
    simp +decide [IP.Mask, CIDRMask, cidrMaskLoop, IPv4len, IPv6len, allFF, subslice,
      and_255_of_byte, ha, hb]
  have hs : IP.String [a, b, 0, 0] = dottedQuad [a, b, 0, 0] := by
    simp +decide [IP.String, IP.To4, IPv4len]
  simp only [GroupKey, hl, hr, (isIPv4_four a b c d).1, hm, hs, dottedQuad_masked a b ha hb]
  simp

/-- Two lists that agree after cutting each at a dot, neither having a dot
before the cut, agree on both sides of the cut. -/
theorem split_at_dot : ∀ (l1 l2 r1 r2 : List Char), '.' ∉ l1 → '.' ∉ l2 →
    l1 ++ '.' :: r1 = l2 ++ '.' :: r2 → l1 = l2 ∧ r1 = r2 := by
  intro l1
  induction l1 with
  | nil =>
    intro l2 r1 r2 _ h2 h
    cases l2 with
    | nil => exact ⟨rfl, by simpa using h⟩
    | cons y l2 =>
      simp only [List.nil_append, List.cons_append, List.cons.injEq] at h
      exact absurd (h.1 ▸ List.mem_cons_self _ _) h2
  | cons x l1 ih =>
    intro l2 r1 r2 h1 h2 h
    cases l2 with
    | nil =>
      simp only [List.nil_append, List.cons_append, List.cons.injEq] at h
      exact absurd (h.1 ▸ List.mem_cons_self _ _) h1
    | cons y l2 =>
      simp only [List.cons_append, List.cons.injEq] at h
      obtain ⟨e1, e2⟩ := ih l2 r1 r2 (fun hm => h1 (List.mem_cons_of_mem _ hm))
        (fun hm => h2 (List.mem_cons_of_mem _ hm)) h.2
      exact ⟨by rw [h.1, e1], e2⟩

/-- The decimal rendering of a byte has no dot and reads back as the byte. -/
theorem toString_byte_facts : ∀ v : Nat, v < 256 →
    '.' ∉ (toString v).data ∧
    (toString v).data.foldl (fun n c => 10 * n + (c.toNat - 48)) 0 = v := by
  decide

/-- Two keys `a.b.0.0` of bytes are equal only for equal `a` and equal `b`. -/
theorem dotted_key_injective (a b a1 b1 : Nat) (ha : a < 256) (hb : b < 256)
    (ha1 : a1 < 256) (hb1 : b1 < 256)
    (h : toString a ++ "." ++ toString b ++ ".0.0" =
      toString a1 ++ "." ++ toString b1 ++ ".0.0") : a = a1 ∧ b = b1 := by
  have hd := String.ext_iff.1 h
  simp only [String.data_append] at hd
  simp only [List.append_assoc, List.singleton_append] at hd
  obtain ⟨la, lrest⟩ := split_at_dot _ _ _ _ (toString_byte_facts a ha).1
    (toString_byte_facts a1 ha1).1 hd
  obtain ⟨lb, -⟩ := split_at_dot _ _ _ _ (toString_byte_facts b hb).1
    (toString_byte_facts b1 hb1).1 lrest
  constructor
  · rw [← (toString_byte_facts a ha).2, ← (toString_byte_facts a1 ha1).2, la]
  · rw [← (toString_byte_facts b hb).2, ← (toString_byte_facts b1 hb1).2, lb]

/-- C23: two routable IPv4 addresses `a.b.c.d` and `a1.b1.c1.d1`, each as 4 bytes
or IPv4-mapped, have the same group key exactly when `a = a1` and `b = b1`. -/
theorem GroupKey_ipv4_eq_iff (a b c d a1 b1 c1 d1 : Nat) (ha : a < 256) (hb : b < 256)
    (ha1 : a1 < 256) (hb1 : b1 < 256) (ip ip1 : IP)
    (hip : ip = [a, b, c, d] ∨ ip = IPv4 a b c d)
    (hip1 : ip1 = [a1, b1, c1, d1] ∨ ip1 = IPv4 a1 b1 c1 d1)
    (hr : IsRoutable ⟨ip⟩ = true) (hr1 : IsRoutable ⟨ip1⟩ = true) :
    GroupKey ⟨ip⟩ = GroupKey ⟨ip1⟩ ↔ a = a1 ∧ b = b1 := by
  have hk : GroupKey ⟨ip⟩ = some (toString a ++ "." ++ toString b ++ ".0.0") := by
    rcases hip with rfl | rfl
    · exact GroupKey_four_of_routable a b c d ha hb hr
    · rw [GroupKey_IPv4]
      rw [IsRoutable_IPv4] at hr
      exact GroupKey_four_of_routable a b c d ha hb hr
  have hk1 : GroupKey ⟨ip1⟩ = some (toString a1 ++ "." ++ toString b1 ++ ".0.0") := by
    rcases hip1 with rfl | rfl
    · exact GroupKey_four_of_routable a1 b1 c1 d1 ha1 hb1 hr1
    · rw [GroupKey_IPv4]
      rw [IsRoutable_IPv4] at hr1
      exact GroupKey_four_of_routable a1 b1 c1 d1 ha1 hb1 hr1
  rw [hk, hk1]
  constructor
  · intro h
    exact dotted_key_injective a b a1 b1 ha hb ha1 hb1 (Option.some.inj h)
  · rintro ⟨rfl, rfl⟩
    rfl

/-- C23, at `8.8.8.8` against `::ffff:8.8.4.4` (same `/16`) and against
`8.9.8.8` (another `/16`). -/
theorem GroupKey_ipv4_eq_iff_witness :
    GroupKey ⟨[8, 8, 8, 8]⟩ = GroupKey ⟨IPv4 8 8 4 4⟩ ∧
    GroupKey ⟨[8, 8, 8, 8]⟩ ≠ GroupKey ⟨[8, 9, 8, 8]⟩ :=
  ⟨(GroupKey_ipv4_eq_iff 8 8 8 8 8 8 4 4 (by decide) (by decide) (by decide) (by decide)
      [8, 8, 8, 8] (IPv4 8 8 4 4) (Or.inl rfl) (Or.inr rfl) (by decide) (by decide)).2
      ⟨rfl, rfl⟩,
    fun h => absurd
      ((GroupKey_ipv4_eq_iff 8 8 8 8 8 9 8 8 (by decide) (by decide) (by decide) (by decide)
        [8, 8, 8, 8] [8, 9, 8, 8] (Or.inl rfl) (Or.inl rfl) (by decide) (by decide)).1 h).2
      (by decide)⟩
